import Mathlib

/-!
Verification development for the Wireshark Protocol Buffers dissector
(`epan/dissectors/packet-protobuf.c`).

The C source is shallowly embedded below.  Machine integers are modelled as
`Nat` (unsigned, with explicit `% 2^w` where the C code truncates or wraps)
and `Int` (signed two's-complement values, obtained from the unsigned bit
pattern via `toInt32` / `toInt64`).  A captured packet buffer (`tvbuff_t`)
is a `List Nat` of bytes; reads that would run past the end of the buffer
model the dissection-aborting exception thrown by the tvb accessors as the
`Exn.bounds` error of an `Except`.  Output-tree writes and expert-info
diagnostics are recorded as an `Action` list; display-only text
(`proto_item_append_text` labels, generated-item lengths) is not modelled.
-/

namespace PacketProtobuf

/-- The exception thrown by tvb accessors on an out-of-range read
(Wireshark's `ReportedBoundsError`, a longjmp that aborts the current
dissection). -/
inductive Exn where
  | bounds
  deriving DecidableEq, Repr

/-- Reinterpret the low 32 bits of an unsigned value as a two's-complement
signed 32-bit integer (the C cast `(gint32)x`). -/
def toInt32 (u : Nat) : Int :=
  if u % 2 ^ 32 < 2 ^ 31 then ((u % 2 ^ 32 : Nat) : Int)
  else ((u % 2 ^ 32 : Nat) : Int) - 2 ^ 32

/-- Reinterpret the low 64 bits of an unsigned value as a two's-complement
signed 64-bit integer (the C cast `(gint64)x`). -/
def toInt64 (u : Nat) : Int :=
  if u % 2 ^ 64 < 2 ^ 63 then ((u % 2 ^ 64 : Nat) : Int)
  else ((u % 2 ^ 64 : Nat) : Int) - 2 ^ 64

/-- The 32-bit unsigned pattern of a signed value (the C conversion
`(guint32)x`, reduction modulo `2^32`). -/
def toUInt32n (x : Int) : Nat := (x % (2 ^ 32 : Int)).toNat

/-- The 64-bit unsigned pattern of a signed value (the C conversion
`(guint64)x`, reduction modulo `2^64`). -/
def toUInt64n (x : Int) : Nat := (x % (2 ^ 64 : Int)).toNat

/-- Embedding of `sint32_decode` (packet-protobuf.c:252-255):
`(sint32 >> 1) ^ ((gint32)sint32 << 31 >> 31)`.
The argument is the `guint32` bit pattern (`u < 2^32` at every call site);
`>> 1` on the unsigned operand is a logical shift, the signed left shift
wraps modulo `2^32` (as compiled), and `>> 31` on the signed operand is an
arithmetic shift, i.e. flooring division by `2^31` (`Int.fdiv`). -/
def sint32_decode (u : Nat) : Int :=
  toInt32 ((u >>> 1) ^^^ toUInt32n (Int.fdiv (toInt32 ((u <<< 31) % 2 ^ 32)) (2 ^ 31)))

/-- Embedding of `sint64_decode` (packet-protobuf.c:258-261):
`(sint64 >> 1) ^ ((gint64)sint64 << 63 >> 63)`. -/
def sint64_decode (u : Nat) : Int :=
  toInt64 ((u >>> 1) ^^^ toUInt64n (Int.fdiv (toInt64 ((u <<< 63) % 2 ^ 64)) (2 ^ 63)))

/-- Modelled from the spec: the zig-zag encoder `(n << 1) XOR (n >> 31)` at
32-bit width, for a signed 32-bit `n`, where `>>` on the signed operand is
an arithmetic shift.  The encoder does not appear in packet-protobuf.c (the
dissector only decodes); this definition follows the spec's formula and
produces the 32-bit wire pattern. -/
def zigzag_encode32 (n : Int) : Nat :=
  toUInt32n (n * 2) ^^^ toUInt32n (Int.fdiv n (2 ^ 31))

/-- Modelled from the spec: the zig-zag encoder `(n << 1) XOR (n >> 63)` at
64-bit width. -/
def zigzag_encode64 (n : Int) : Nat :=
  toUInt64n (n * 2) ^^^ toUInt64n (Int.fdiv n (2 ^ 63))

/-! ### Wire types and declared field types

Wire-type codes follow `packet-protobuf.h` / the protobuf encoding
(VARINT 0, FIXED64 1, LENGTH_DELIMITED 2, START_GROUP 3, END_GROUP 4,
FIXED32 5), as also listed in the row comments of
`protobuf_wire_to_field_type` (packet-protobuf.c:68-91). -/

def PROTOBUF_WIRETYPE_VARINT : Nat := 0
def PROTOBUF_WIRETYPE_FIXED64 : Nat := 1
def PROTOBUF_WIRETYPE_LENGTH_DELIMITED : Nat := 2
def PROTOBUF_WIRETYPE_START_GROUP : Nat := 3
def PROTOBUF_WIRETYPE_END_GROUP : Nat := 4
def PROTOBUF_WIRETYPE_FIXED32 : Nat := 5

/-- The declared protobuf field types (`PROTOBUF_TYPE_*` of
protobuf-helper.h; `NONE` is the `PROTOBUF_TYPE_NONE = 0` sentinel that
terminates the rows of `protobuf_wire_to_field_type`).  The integer codes
are opaque tags for the dissector, so they are modelled as an inductive
enumeration. -/
inductive ProtobufType where
  | NONE | DOUBLE | FLOAT | INT64 | UINT64 | INT32 | FIXED64 | FIXED32
  | BOOL | STRING | GROUP | MESSAGE | BYTES | UINT32 | ENUM
  | SFIXED32 | SFIXED64 | SINT32 | SINT64
  deriving DecidableEq, Repr

/-- Embedding of the `protobuf_wire_to_field_type[6][9]` table
(packet-protobuf.c:68-91), row-indexed by wire type.  Each row is written
exactly as in the C initializer; the C array's remaining slots are padded
with zeros (= `PROTOBUF_TYPE_NONE`) and iteration always stops at the
first `NONE`, so the explicit terminator suffices.  Note the FIXED32 row
contains `PROTOBUF_TYPE_SINT32` (not `SFIXED32`) in the source. -/
def protobuf_wire_to_field_type : List (List ProtobufType) :=
  [ [.INT32, .INT64, .UINT32, .UINT64, .SINT32, .SINT64, .BOOL, .ENUM, .NONE],
    [.FIXED64, .SFIXED64, .DOUBLE, .NONE],
    [.STRING, .BYTES, .MESSAGE, .GROUP, .NONE],
    [.NONE],
    [.NONE],
    [.FIXED32, .SINT32, .FLOAT, .NONE] ]

/-! ### Schema view (descriptor pool objects, protobuf-helper interface)

Only the capabilities the decoder queries are modelled
(`pbw_FieldDescriptor_name/type/is_repeated/is_packed/message_type`,
`pbw_Descriptor_FindFieldByNumber`, `pbw_Descriptor_full_name`).  Enum
value-name resolution only affects display labels, which are not
modelled. -/

mutual
inductive PbwDescriptor where
  | mk (full_name : String) (fields : List (Int × PbwFieldDescriptor))
inductive PbwFieldDescriptor where
  | mk (name : String) (ftype : ProtobufType) (is_repeated : Bool) (is_packed : Bool)
       (message_type : Option PbwDescriptor)
end

def PbwDescriptor.full_name : PbwDescriptor → String
  | .mk n _ => n

def PbwDescriptor.fields : PbwDescriptor → List (Int × PbwFieldDescriptor)
  | .mk _ fs => fs

/-- `pbw_Descriptor_FindFieldByNumber`: resolve a field descriptor by
field number within a message descriptor. -/
def pbw_Descriptor_FindFieldByNumber (md : PbwDescriptor) (n : Int) : Option PbwFieldDescriptor :=
  (md.fields.find? (fun p => p.1 == n)).map (fun p => p.2)

def PbwFieldDescriptor.name : PbwFieldDescriptor → String
  | .mk n _ _ _ _ => n

def PbwFieldDescriptor.ftype : PbwFieldDescriptor → ProtobufType
  | .mk _ t _ _ _ => t

def PbwFieldDescriptor.is_repeated : PbwFieldDescriptor → Bool
  | .mk _ _ r _ _ => r

def PbwFieldDescriptor.is_packed : PbwFieldDescriptor → Bool
  | .mk _ _ _ p _ => p

def PbwFieldDescriptor.message_type : PbwFieldDescriptor → Option PbwDescriptor
  | .mk _ _ _ _ m => m

/-- The three dissector preferences read by the decoding core
(packet-protobuf.c:137-139; globals in C, passed explicitly here). -/
structure ProtobufPrefs where
  try_dissect_as_string : Bool
  show_all_possible_field_types : Bool
  dissect_bytes_as_string : Bool
  deriving DecidableEq, Repr

/-! ### Output-tree / expert-info actions -/

/-- The expert-info diagnostic kinds registered by the dissector
(packet-protobuf.c:121-127). -/
inductive ExpertKind where
  | failedParseTag
  | failedParseLengthDelimitedField
  | failedParseField
  | wireTypeInvalid
  | messageTypeNotFound
  | wireTypeNotSupportPackedRepeated
  | failedParsePackedRepeatedField
  deriving DecidableEq, Repr

/-- Tree writes and diagnostics recorded during decoding, in emission
order.  Constructors correspond to the `proto_tree_add_*` /
`expert_add_info` calls of packet-protobuf.c; pure text appends and
`proto_item_set_len` are not modelled, except for the `"]"` appended at
the successful end of a packed-repeated expansion
(packet-protobuf.c:380), recorded as `packedEnd` so that a completed
expansion is distinguishable. -/
inductive Action where
  | fieldNumberItem (n : Nat)
  | wireTypeItem (w : Nat)
  | fieldNameItem (s : String)
  | fieldTypeItem (t : ProtobufType)
  | valueLengthItem (n : Nat)
  | valueBytesItem (off len : Nat)
  | typedLeaf (t : ProtobufType) (off len : Nat) (v : Int)
  | repeatedItem (off len : Nat)
  | packedEnd
  | expertInfo (k : ExpertKind)
  | messageItem (off len : Nat) (name : String)
  deriving DecidableEq, Repr

/-- Which of the four rendering branches of
`dissect_one_protobuf_field` (packet-protobuf.c:671-694) handled the
value of a successfully decoded field. -/
inductive Route where
  | packedExpander
  | schemaRenderer
  | fallbackMulti
  | fallbackSingle
  deriving DecidableEq, Repr

/-- Result of `dissect_one_protobuf_field`: a thrown tvb exception
(carrying the cursor position at the throw), a `FALSE` return (carrying
the cursor position, which the C code does not restore), or a `TRUE`
return with the advanced cursor.  `fuelOut` marks recursion-fuel
exhaustion of the embedding and never occurs for sufficient fuel. -/
inductive FieldResult where
  | fuelOut
  | thrown (acts : List Action) (off : Nat)
  | failed (acts : List Action) (off : Nat)
  | success (acts : List Action) (off : Nat) (route : Route)
  deriving DecidableEq, Repr

def FieldResult.actions : FieldResult → List Action
  | .fuelOut => []
  | .thrown a _ => a
  | .failed a _ => a
  | .success a _ _ => a

def FieldResult.cursor : FieldResult → Option Nat
  | .fuelOut => none
  | .thrown _ o => some o
  | .failed _ o => some o
  | .success _ o _ => some o

/-- Result of `dissect_protobuf_message` (a `void` function in C): either
an escaping tvb exception or normal completion. -/
inductive MRes where
  | fuelOut
  | thrown (acts : List Action)
  | done (acts : List Action)
  deriving DecidableEq, Repr

/-- Result of `protobuf_dissect_field_value` /
`protobuf_try_dissect_field_value_on_multi_types` (void in C). -/
inductive RRes where
  | fuelOut
  | thrown (acts : List Action)
  | ok (acts : List Action)
  deriving DecidableEq, Repr

/-- Result of `dissect_packed_repeated_field_values`, which returns the
number of consumed bytes (`0` on failure, `length` on success). -/
inductive PRes where
  | fuelOut
  | thrown (acts : List Action)
  | ret (consumed : Nat) (acts : List Action)
  deriving DecidableEq, Repr

def PRes.actions : PRes → List Action
  | .fuelOut => []
  | .thrown a => a
  | .ret _ a => a

/-- Sequencing of two renderer results (the nested result matches of the
C loops): a failure of the first part short-circuits, otherwise the
emitted actions are concatenated. -/
def RRes.seq : RRes → RRes → RRes
  | .fuelOut, _ => .fuelOut
  | .thrown a, _ => .thrown a
  | .ok _, .fuelOut => .fuelOut
  | .ok a, .thrown b => .thrown (a ++ b)
  | .ok a, .ok b => .ok (a ++ b)

/-- The declared types of the typed leaves in an action list (the types a
value was rendered under). -/
def leafTypes (acts : List Action) : List ProtobufType :=
  acts.filterMap fun a =>
    match a with
    | .typedLeaf t _ _ _ => some t
    | _ => none

/-! ### Wire reader (tvb accessors) -/

/-- One byte (`tvb_get_guint8`); throws past the captured end. -/
def tvb_get_guint8 (tvb : List Nat) (off : Nat) : Except Exn Nat :=
  match tvb.get? off with
  | some b => .ok b
  | none => .error .bounds

/-- The loop body of `tvb_get_varint` (epan/tvbuff.c, `ENC_VARINT_PROTOBUF`):
for `i < FT_VARINT_MAX_LEN && i < maxlength`, read byte `i`, OR
`(b & 0x7F) << (7*i)` (a `guint64` shift, wrapping modulo `2^64`) into the
accumulator, and return `i+1` when the continuation bit is clear.
`rem` counts the remaining permitted iterations; falling out of the loop
returns length `0` (parse failure). -/
def tvb_varint_go (tvb : List Nat) (off : Nat) : Nat → Nat → Nat → Except Exn (Nat × Nat)
  | 0, _, acc => .ok (0, acc)
  | rem + 1, i, acc =>
    match tvb.get? (off + i) with
    | none => .error .bounds
    | some b =>
      let acc' := acc ||| ((b &&& 0x7F) <<< (7 * i)) % 2 ^ 64
      if b &&& 0x80 = 0 then .ok (i + 1, acc')
      else tvb_varint_go tvb off rem (i + 1) acc'

/-- `tvb_get_varint(tvb, offset, maxlength, &value, ENC_VARINT_PROTOBUF)`:
returns `(length, value)`, where `length = 0` means "no valid varint
within `maxlength` (or ten) bytes". -/
def tvb_get_varint (tvb : List Nat) (off maxlen : Nat) : Except Exn (Nat × Nat) :=
  tvb_varint_go tvb off (min 10 maxlen) 0 0

/-- `tvb_get_letohl`: 32-bit little-endian read. -/
def tvb_get_letohl (tvb : List Nat) (off : Nat) : Except Exn Nat :=
  match tvb.get? off, tvb.get? (off + 1), tvb.get? (off + 2), tvb.get? (off + 3) with
  | some b0, some b1, some b2, some b3 =>
    .ok (b0 + b1 * 2 ^ 8 + b2 * 2 ^ 16 + b3 * 2 ^ 24)
  | _, _, _, _ => .error .bounds

/-- `tvb_get_letoh64`: 64-bit little-endian read. -/
def tvb_get_letoh64 (tvb : List Nat) (off : Nat) : Except Exn Nat :=
  match tvb.get? off, tvb.get? (off + 1), tvb.get? (off + 2), tvb.get? (off + 3),
        tvb.get? (off + 4), tvb.get? (off + 5), tvb.get? (off + 6), tvb.get? (off + 7) with
  | some b0, some b1, some b2, some b3, some b4, some b5, some b6, some b7 =>
    .ok (b0 + b1 * 2 ^ 8 + b2 * 2 ^ 16 + b3 * 2 ^ 24 + b4 * 2 ^ 32 + b5 * 2 ^ 40
         + b6 * 2 ^ 48 + b7 * 2 ^ 56)
  | _, _, _, _, _, _, _, _ => .error .bounds

/-! ### Value renderer -/

/-- Embedding of `protobuf_dissect_field_value` (packet-protobuf.c:385-518).
`recur` is the nested-message entry (`dissect_protobuf_message`) with the
tvb and preferences already applied.  For DOUBLE/FLOAT the recorded leaf
value is the raw bit pattern (IEEE-754 reinterpretation is display-only).
STRING (and BYTES shown as string) reads the value bytes
(`proto_tree_add_item_ret_display_string`), which throws past the captured
end; the recorded leaf value is `0` (the text is display-only). -/
def protobuf_dissect_field_value (recur : Nat → Nat → Option PbwDescriptor → MRes)
    (tvb : List Nat) (offset length : Nat) (field_type : ProtobufType) (value : Nat)
    (field_desc : Option PbwFieldDescriptor) (prefs : ProtobufPrefs) : RRes :=
  match field_type with
  | .DOUBLE => .ok [.typedLeaf .DOUBLE offset length (value : Int)]
  | .FLOAT => .ok [.typedLeaf .FLOAT offset length ((value % 2 ^ 32 : Nat) : Int)]
  | .INT64 => .ok [.typedLeaf .INT64 offset length (toInt64 value)]
  | .SFIXED64 => .ok [.typedLeaf .SFIXED64 offset length (toInt64 value)]
  | .UINT64 => .ok [.typedLeaf .UINT64 offset length (value : Int)]
  | .FIXED64 => .ok [.typedLeaf .FIXED64 offset length (value : Int)]
  | .INT32 => .ok [.typedLeaf .INT32 offset length (toInt32 value)]
  | .SFIXED32 => .ok [.typedLeaf .SFIXED32 offset length (toInt32 value)]
  | .ENUM => .ok [.typedLeaf .ENUM offset length (toInt32 value)]
  | .BOOL =>
    if length > 1 then .ok []
    else .ok [.typedLeaf .BOOL offset length ((value % 2 ^ 32 : Nat) : Int)]
  | .BYTES =>
    if prefs.dissect_bytes_as_string then
      if offset + length ≤ tvb.length then .ok [.typedLeaf .STRING offset length 0]
      else .thrown []
    else .ok []
  | .STRING =>
    if offset + length ≤ tvb.length then .ok [.typedLeaf .STRING offset length 0]
    else .thrown []
  | .GROUP | .MESSAGE =>
    match field_desc with
    | some fd =>
      match fd.message_type with
      | some md =>
        match recur offset length (some md) with
        | .fuelOut => .fuelOut
        | .thrown a => .thrown a
        | .done a => .ok a
      | none => .ok [.expertInfo .messageTypeNotFound]
    | none => .ok []
  | .UINT32 => .ok [.typedLeaf .UINT32 offset length ((value % 2 ^ 32 : Nat) : Int)]
  | .FIXED32 => .ok [.typedLeaf .FIXED32 offset length ((value % 2 ^ 32 : Nat) : Int)]
  | .SINT32 => .ok [.typedLeaf .SINT32 offset length (sint32_decode (value % 2 ^ 32))]
  | .SINT64 => .ok [.typedLeaf .SINT64 offset length (sint64_decode value)]
  | .NONE => .ok []

/-- Embedding of `protobuf_try_dissect_field_value_on_multi_types`
(packet-protobuf.c:521-535): render under each type of the list until the
`NONE` terminator. -/
def protobuf_try_dissect_field_value_on_multi_types
    (recur : Nat → Nat → Option PbwDescriptor → MRes) (tvb : List Nat)
    (offset length : Nat) (field_types : List ProtobufType) (value : Nat)
    (prefs : ProtobufPrefs) : RRes :=
  match field_types with
  | [] => .ok []
  | .NONE :: _ => .ok []
  | t :: rest =>
    RRes.seq (protobuf_dissect_field_value recur tvb offset length t value none prefs)
      (protobuf_try_dissect_field_value_on_multi_types recur tvb offset length rest value prefs)

/-! ### Packed-repeated expander -/

/-- Iteration core of `parseVarints`.  `rem` is a structural iteration
budget; every parsed element consumes at least one byte, so
`rem = maxOff - off` iterations always suffice (the `rem = 0, off < maxOff`
default is unreachable for that budget, see `parseVarintsGo_congr`). -/
def parseVarintsGo (tvb : List Nat) (maxOff : Nat) :
    Nat → Nat → Except Exn (Option (List (Nat × Nat × Nat)))
  | 0, _ => .ok none
  | rem + 1, off =>
    if off < maxOff then
      match tvb_get_varint tvb off (maxOff - off) with
      | .error e => .error e
      | .ok (0, _) => .ok none
      | .ok (n + 1, v) =>
        match parseVarintsGo tvb maxOff rem (off + (n + 1)) with
        | .error e => .error e
        | .ok none => .ok none
        | .ok (some rest) => .ok (some ((off, n + 1, v) :: rest))
    else .ok (some [])

/-- Pass 1 of the varint-packed case of
`dissect_packed_repeated_field_values` (packet-protobuf.c:317-333): greedily
varint-decode `[off, maxOff)` collecting `(offset, length, value)` triples;
`none` when some element fails to parse (`tvb_get_varint` returned 0). -/
def parseVarints (tvb : List Nat) (off maxOff : Nat) :
    Except Exn (Option (List (Nat × Nat × Nat))) :=
  parseVarintsGo tvb maxOff (maxOff - off + 1) off

/-- Pass 2 of the varint-packed case (packet-protobuf.c:336-341): render
each collected element. -/
def renderElements (recur : Nat → Nat → Option PbwDescriptor → MRes) (tvb : List Nat)
    (field_type : ProtobufType) (field_desc : Option PbwFieldDescriptor)
    (prefs : ProtobufPrefs) : List (Nat × Nat × Nat) → RRes
  | [] => .ok []
  | (o, l, v) :: rest =>
    RRes.seq (protobuf_dissect_field_value recur tvb o l field_type v field_desc prefs)
      (renderElements recur tvb field_type field_desc prefs rest)

/-- The fixed-stride loop of `dissect_packed_repeated_field_values`
(packet-protobuf.c:365-371): the element read is a 32-bit load only when
the observed wire type is FIXED32, otherwise a 64-bit load, exactly as in
the source's conditional.  `count` is the number of elements
(`length / value_size`, exact because divisibility was checked). -/
def packed_fixed_loop (recur : Nat → Nat → Option PbwDescriptor → MRes) (tvb : List Nat)
    (wire_type : Nat) (field_type : ProtobufType) (field_desc : Option PbwFieldDescriptor)
    (prefs : ProtobufPrefs) (value_size : Nat) : Nat → Nat → RRes
  | 0, _ => .ok []
  | count + 1, off =>
    match (if wire_type = 5 then tvb_get_letohl tvb off else tvb_get_letoh64 tvb off) with
    | .error _ => .thrown []
    | .ok v =>
      RRes.seq (protobuf_dissect_field_value recur tvb off value_size field_type v field_desc prefs)
        (packed_fixed_loop recur tvb wire_type field_type field_desc prefs value_size count (off + value_size))

/-- Wrap a completed expansion body into the expander's result: on
normal completion append the `"]"` marker and return `length` consumed
(packet-protobuf.c:380-381). -/
def rresToPRes (acts0 : List Action) (length : Nat) : RRes → PRes
  | .fuelOut => .fuelOut
  | .thrown a => .thrown (acts0 ++ a)
  | .ok a => .ret length (acts0 ++ a ++ [.packedEnd])

/-- Embedding of `dissect_packed_repeated_field_values`
(packet-protobuf.c:278-382).  The leading `proto_tree_add_item` of the
"Repeated" container (line 297) bounds-checks `[start, start+length)` and
is recorded as `repeatedItem`; the `"]"` appended on the successful exit
(line 380) is recorded as `packedEnd`.  The varint-packed failure path
(line 319-323) returns 0 with no diagnostic; the fixed-stride families
check `length % value_size != 0` (emitting
`failedParsePackedRepeatedField`), and any other declared type emits
`wireTypeNotSupportPackedRepeated`.  Returns the consumed byte count. -/
def dissect_packed_repeated_field_values (recur : Nat → Nat → Option PbwDescriptor → MRes)
    (tvb : List Nat) (start length : Nat) (wire_type : Nat) (field_type : ProtobufType)
    (field_desc : Option PbwFieldDescriptor) (prefs : ProtobufPrefs) : PRes :=
  if start + length ≤ tvb.length then
    let acts0 : List Action := [.repeatedItem start length]
    match field_type with
    | .INT32 | .INT64 | .UINT32 | .UINT64 | .SINT32 | .SINT64 | .BOOL | .ENUM =>
      match parseVarints tvb start (start + length) with
      | .error _ => .thrown acts0
      | .ok none => .ret 0 acts0
      | .ok (some infos) =>
        rresToPRes acts0 length (renderElements recur tvb field_type field_desc prefs infos)
    | .FIXED64 | .SFIXED64 | .DOUBLE | .FIXED32 | .SFIXED32 | .FLOAT =>
      let value_size : Nat :=
        match field_type with
        | .FIXED64 | .SFIXED64 | .DOUBLE => 8
        | _ => 4
      if length % value_size ≠ 0 then
        .ret 0 (acts0 ++ [.expertInfo .failedParsePackedRepeatedField])
      else
        rresToPRes acts0 length
          (packed_fixed_loop recur tvb wire_type field_type field_desc prefs value_size
            (length / value_size) start)
    | _ => .ret 0 (acts0 ++ [.expertInfo .wireTypeNotSupportPackedRepeated])
  else .thrown []

/-! ### Field decoder -/

/-- The generated field-name / field-type items of
`dissect_one_protobuf_field` (packet-protobuf.c:601-614): the name item is
always added (`"<UNKNOWN>"` when unresolved); the declared-type item only
when the field resolved and its type code is positive. -/
def fieldNameActions (field_desc : Option PbwFieldDescriptor) : List Action :=
  match field_desc with
  | some fd =>
    [.fieldNameItem fd.name] ++ (if fd.ftype = .NONE then [] else [.fieldTypeItem fd.ftype])
  | none => [.fieldNameItem "<UNKNOWN>"]

/-- Wrap a renderer result into the field decoder's result: cursor stays
at the value start on a throw, advances past the value on success
(packet-protobuf.c:696-697). -/
def renderToField (acts : List Action) (off2 value_length : Nat) (route : Route) :
    RRes → FieldResult
  | .fuelOut => .fuelOut
  | .thrown a => .thrown (acts ++ a) off2
  | .ok a => .success (acts ++ a) (off2 + value_length) route

/-- Wrap a packed-expander result into the field decoder's result (the
C code ignores the expander's return value and returns TRUE). -/
def packedToField (acts : List Action) (off2 value_length : Nat) : PRes → FieldResult
  | .fuelOut => .fuelOut
  | .thrown a => .thrown (acts ++ a) off2
  | .ret _ a => .success (acts ++ a) (off2 + value_length) .packedExpander

/-- The tail of `dissect_one_protobuf_field` after the wire-type switch
(packet-protobuf.c:659-697): bounds-checked raw-value item
(`proto_tree_add_item`, throws past the captured end), then dispatch to
the packed-repeated expander / schema renderer / unknown-field fallback,
then `*offset += value_length; return TRUE`. -/
def dissect_field_value_and_advance (recur : Nat → Nat → Option PbwDescriptor → MRes)
    (tvb : List Nat) (wire_type : Nat) (field_desc : Option PbwFieldDescriptor)
    (prefs : ProtobufPrefs) (off2 value_length : Nat) (value_uint64 : Nat)
    (acts : List Action) : FieldResult :=
  if off2 + value_length ≤ tvb.length then
    match field_desc with
    | some fd =>
      if fd.is_packed && fd.is_repeated then
        packedToField (acts ++ [Action.valueBytesItem off2 value_length]) off2 value_length
          (dissect_packed_repeated_field_values recur tvb off2 value_length wire_type
            fd.ftype (some fd) prefs)
      else
        renderToField (acts ++ [Action.valueBytesItem off2 value_length]) off2 value_length
          .schemaRenderer
          (protobuf_dissect_field_value recur tvb off2 value_length fd.ftype value_uint64
            (some fd) prefs)
    | none =>
      if prefs.show_all_possible_field_types then
        renderToField (acts ++ [Action.valueBytesItem off2 value_length]) off2 value_length
          .fallbackMulti
          (protobuf_try_dissect_field_value_on_multi_types recur tvb off2 value_length
            (protobuf_wire_to_field_type.getD wire_type []) value_uint64 prefs)
      else
        renderToField (acts ++ [Action.valueBytesItem off2 value_length]) off2 value_length
          .fallbackSingle
          (protobuf_try_dissect_field_value_on_multi_types recur tvb off2 value_length
            [if wire_type = 2 then
               (if prefs.try_dissect_as_string then .STRING else .NONE)
             else
               (if value_uint64 ≤ 0xFFFFFFFF then .UINT32 else .UINT64), .NONE]
            value_uint64 prefs)
  else .thrown acts off2

/-- The wire-type switch of `dissect_one_protobuf_field`
(packet-protobuf.c:616-657), entered with the cursor already advanced
past the tag: VARINT reads a value varint (failure: `failedParseField`),
FIXED64/FIXED32 read 8/4 little-endian bytes (which may throw),
LENGTH_DELIMITED reads a length-prefix varint (failure:
`failedParseLengthDelimitedField`), records the length item, advances
past the prefix and truncates the length through the C cast
`(guint)value_uint64` (modulo `2^32`); any other wire type fails with
`wireTypeInvalid`. -/
def dissect_tagged_field (recur : Nat → Nat → Option PbwDescriptor → MRes)
    (tvb : List Nat) (offset tag_length maxlen wire_type : Nat)
    (field_desc : Option PbwFieldDescriptor) (prefs : ProtobufPrefs)
    (tagActs : List Action) : FieldResult :=
  match wire_type with
  | 0 =>
    match tvb_get_varint tvb (offset + tag_length) (maxlen - tag_length) with
    | .error _ => .thrown tagActs (offset + tag_length)
    | .ok (0, _) => .failed (tagActs ++ [.expertInfo .failedParseField]) (offset + tag_length)
    | .ok (vl + 1, v) =>
      dissect_field_value_and_advance recur tvb 0 field_desc prefs
        (offset + tag_length) (vl + 1) v tagActs
  | 1 =>
    match tvb_get_letoh64 tvb (offset + tag_length) with
    | .error _ => .thrown tagActs (offset + tag_length)
    | .ok v =>
      dissect_field_value_and_advance recur tvb 1 field_desc prefs
        (offset + tag_length) 8 v tagActs
  | 5 =>
    match tvb_get_letohl tvb (offset + tag_length) with
    | .error _ => .thrown tagActs (offset + tag_length)
    | .ok v =>
      dissect_field_value_and_advance recur tvb 5 field_desc prefs
        (offset + tag_length) 4 v tagActs
  | 2 =>
    match tvb_get_varint tvb (offset + tag_length) (maxlen - tag_length) with
    | .error _ => .thrown tagActs (offset + tag_length)
    | .ok (0, _) =>
      .failed (tagActs ++ [.expertInfo .failedParseLengthDelimitedField]) (offset + tag_length)
    | .ok (ps + 1, lval) =>
      dissect_field_value_and_advance recur tvb 2 field_desc prefs
        (offset + tag_length + (ps + 1)) (lval % 2 ^ 32) lval
        (tagActs ++ [.valueLengthItem lval])
  | _ => .failed (tagActs ++ [.expertInfo .wireTypeInvalid]) (offset + tag_length)

/-- Embedding of `dissect_one_protobuf_field` (packet-protobuf.c:537-698),
entry part: parse the tag varint (failure: `failedParseTag`, cursor
unchanged), split it into field number and wire type, resolve the field
descriptor (the C code casts the field number through `(int)`, modelled by
`toInt32`), and hand over to the wire-type switch. -/
def dissect_one_protobuf_field (recur : Nat → Nat → Option PbwDescriptor → MRes)
    (tvb : List Nat) (offset maxlen : Nat) (message_desc : Option PbwDescriptor)
    (prefs : ProtobufPrefs) : FieldResult :=
  match tvb_get_varint tvb offset maxlen with
  | .error _ => .thrown [] offset
  | .ok (0, _) => .failed [.expertInfo .failedParseTag] offset
  | .ok (tl + 1, tag_value) =>
    let field_number := tag_value >>> 3
    let wire_type := tag_value &&& 7
    let field_desc :=
      message_desc.bind fun md => pbw_Descriptor_FindFieldByNumber md (toInt32 field_number)
    dissect_tagged_field recur tvb offset (tl + 1) maxlen wire_type field_desc prefs
      ([Action.fieldNumberItem field_number, Action.wireTypeItem wire_type]
        ++ fieldNameActions field_desc)

/-! ### Message decoder -/

/-- The `while (offset < max_offset)` loop of `dissect_protobuf_message`
(packet-protobuf.c:720-724), iterating `dissect_one_protobuf_field` and
breaking at the first `FALSE` (already-emitted children are retained).
`iter` is a structural iteration budget; `dissect_protobuf_message`
supplies `length + 1`, which suffices because every successful field
advances the cursor. -/
def msgLoop (fieldFn : Nat → Nat → FieldResult) : Nat → Nat → Nat → List Action → MRes
  | 0, _, _, _ => .fuelOut
  | iter + 1, off, maxOff, acc =>
    if off < maxOff then
      match fieldFn off (maxOff - off) with
      | .fuelOut => .fuelOut
      | .thrown a _ => .thrown (acc ++ a)
      | .failed a _ => .done (acc ++ a)
      | .success a off' _ => msgLoop fieldFn iter off' maxOff (acc ++ a)
    else .done acc

/-- Embedding of `dissect_protobuf_message` (packet-protobuf.c:700-725):
create the "Message" subtree (with the descriptor's full name or
`"<UNKNOWN> Message Type"`), then run the field loop over
`[offset, offset+length)`.  `fuel` bounds the nested-message recursion
depth; it never runs out when `fuel ≥ tvb.length + 2` (proved below),
because each nesting level starts at a strictly larger buffer offset. -/
def dissect_protobuf_message :
    Nat → List Nat → Nat → Nat → Option PbwDescriptor → ProtobufPrefs → MRes
  | 0, _, _, _, _, _ => .fuelOut
  | fuel + 1, tvb, offset, length, message_desc, prefs =>
    let name :=
      match message_desc with
      | some md => md.full_name
      | none => "<UNKNOWN> Message Type"
    msgLoop
      (fun o ml =>
        dissect_one_protobuf_field
          (fun o' l' d' => dissect_protobuf_message fuel tvb o' l' d' prefs)
          tvb o ml message_desc prefs)
      (length + 1) offset (offset + length) [.messageItem offset length name]

/-- The actions carried by a renderer result. -/
def RRes.actions : RRes → List Action
  | .fuelOut => []
  | .thrown a => a
  | .ok a => a

/-- The element stride of the fixed-width packed families
(packet-protobuf.c:348-358: `value_size`). -/
def packed_value_size : ProtobufType → Nat
  | .FIXED64 | .SFIXED64 | .DOUBLE => 8
  | _ => 4

/-! ### Concrete inputs for closed evaluations -/

/-- A nested-message callback used in closed evaluations whose inputs
never recurse into a nested message. -/
def recurNone : Nat → Nat → Option PbwDescriptor → MRes := fun _ _ _ => .fuelOut

/-- All three preferences off. -/
def prefsOff : ProtobufPrefs := ⟨false, false, false⟩

/-- Preferences with `show_all_possible_field_types` on. -/
def prefsShowAll : ProtobufPrefs := ⟨false, true, false⟩

/-- A descriptor with one repeated+packed INT32 field numbered 1. -/
def descPackedInt32 : PbwDescriptor := .mk "M" [(1, .mk "f" .INT32 true true none)]

/-! ### Result-combinator and decoder shape lemmas -/

theorem renderToField_success_iff {acts : List Action} {off2 vl : Nat} {rt : Route}
    {x : RRes} {A O R} :
    renderToField acts off2 vl rt x = .success A O R ↔
      ∃ a, x = .ok a ∧ A = acts ++ a ∧ O = off2 + vl ∧ R = rt := by
  cases x <;> simp [renderToField] <;> aesop

theorem renderToField_thrown_iff {acts : List Action} {off2 vl : Nat} {rt : Route}
    {x : RRes} {A O} :
    renderToField acts off2 vl rt x = .thrown A O ↔
      ∃ a, x = .thrown a ∧ A = acts ++ a ∧ O = off2 := by
  cases x <;> simp [renderToField] <;> aesop

theorem renderToField_ne_failed {acts : List Action} {off2 vl : Nat} {rt : Route}
    {x : RRes} {A O} :
    renderToField acts off2 vl rt x ≠ .failed A O := by
  cases x <;> simp [renderToField]

theorem packedToField_success_iff {acts : List Action} {off2 vl : Nat}
    {x : PRes} {A O R} :
    packedToField acts off2 vl x = .success A O R ↔
      ∃ n a, x = .ret n a ∧ A = acts ++ a ∧ O = off2 + vl ∧ R = .packedExpander := by
  cases x <;> simp [packedToField] <;> aesop

theorem packedToField_thrown_iff {acts : List Action} {off2 vl : Nat}
    {x : PRes} {A O} :
    packedToField acts off2 vl x = .thrown A O ↔
      ∃ a, x = .thrown a ∧ A = acts ++ a ∧ O = off2 := by
  cases x <;> simp [packedToField] <;> aesop

theorem packedToField_ne_failed {acts : List Action} {off2 vl : Nat}
    {x : PRes} {A O} :
    packedToField acts off2 vl x ≠ .failed A O := by
  cases x <;> simp [packedToField]

/-- Cursor of a successful after-switch step: always `off2 + value_length`. -/
theorem after_success_cursor {recur tvb w fdo prefs off2 vl v acts A O R}
    (h : dissect_field_value_and_advance recur tvb w fdo prefs off2 vl v acts
          = .success A O R) :
    O = off2 + vl := by
  unfold dissect_field_value_and_advance at h
  iterate 6 (all_goals (try split at h))
  all_goals
    first
    | (rw [renderToField_success_iff] at h; obtain ⟨a, _, _, hO, _⟩ := h; omega)
    | (rw [packedToField_success_iff] at h; obtain ⟨n, a, _, _, hO, _⟩ := h; omega)
    | simp_all

/-- Cursor of a throwing after-switch step: always `off2` (for the
LENGTH_DELIMITED wire type the cursor has already passed the length
prefix when the raw-value item or the renderer throws). -/
theorem after_thrown_cursor {recur tvb w fdo prefs off2 vl v acts A O}
    (h : dissect_field_value_and_advance recur tvb w fdo prefs off2 vl v acts
          = .thrown A O) :
    O = off2 := by
  unfold dissect_field_value_and_advance at h
  iterate 6 (all_goals (try split at h))
  all_goals
    first
    | (rw [renderToField_thrown_iff] at h; obtain ⟨a, _, _, hO⟩ := h; omega)
    | (rw [packedToField_thrown_iff] at h; obtain ⟨a, _, _, hO⟩ := h; omega)
    | simp_all

/-- The after-switch step never returns FALSE: every FALSE return of
`dissect_one_protobuf_field` happens before the wire-type switch ends. -/
theorem after_ne_failed {recur tvb w fdo prefs off2 vl v acts A O} :
    dissect_field_value_and_advance recur tvb w fdo prefs off2 vl v acts
      ≠ .failed A O := by
  unfold dissect_field_value_and_advance
  iterate 6 (all_goals (try split))
  all_goals
    first
    | exact renderToField_ne_failed
    | exact packedToField_ne_failed
    | simp

/-- Unfolding of `dissect_one_protobuf_field` once the tag varint is
known. -/
theorem dissect_one_eq_tagged {recur tvb offset maxlen desc prefs tl tv}
    (htag : tvb_get_varint tvb offset maxlen = .ok (tl + 1, tv)) :
    dissect_one_protobuf_field recur tvb offset maxlen desc prefs
      = dissect_tagged_field recur tvb offset (tl + 1) maxlen (tv &&& 7)
          (desc.bind fun md => pbw_Descriptor_FindFieldByNumber md (toInt32 (tv >>> 3)))
          prefs
          ([Action.fieldNumberItem (tv >>> 3), Action.wireTypeItem (tv &&& 7)]
            ++ fieldNameActions
                (desc.bind fun md => pbw_Descriptor_FindFieldByNumber md (toInt32 (tv >>> 3)))) := by
  unfold dissect_one_protobuf_field
  rw [htag]

/-- Tag-varint parse failure: `failedParseTag`, FALSE, cursor unchanged. -/
theorem dissect_one_tag_fail {recur tvb offset maxlen desc prefs u}
    (htag : tvb_get_varint tvb offset maxlen = .ok (0, u)) :
    dissect_one_protobuf_field recur tvb offset maxlen desc prefs
      = .failed [.expertInfo .failedParseTag] offset := by
  unfold dissect_one_protobuf_field
  rw [htag]

/-- Tag-varint read exception: cursor unchanged at the throw. -/
theorem dissect_one_tag_throw {recur tvb offset maxlen desc prefs e}
    (htag : tvb_get_varint tvb offset maxlen = .error e) :
    dissect_one_protobuf_field recur tvb offset maxlen desc prefs
      = .thrown [] offset := by
  unfold dissect_one_protobuf_field
  rw [htag]

theorem tagged_w0_success {recur tvb offset tagLen maxlen fdo prefs tagActs A O R}
    (h : dissect_tagged_field recur tvb offset tagLen maxlen 0 fdo prefs tagActs
          = .success A O R) :
    ∃ vl v, tvb_get_varint tvb (offset + tagLen) (maxlen - tagLen) = .ok (vl + 1, v)
      ∧ O = offset + tagLen + (vl + 1) := by
  rcases hx : tvb_get_varint tvb (offset + tagLen) (maxlen - tagLen) with e | ⟨n, v⟩
  · simp [dissect_tagged_field, hx] at h
  · cases n with
    | zero => simp [dissect_tagged_field, hx] at h
    | succ vl =>
      simp only [dissect_tagged_field, hx] at h
      exact ⟨vl, v, rfl, after_success_cursor h⟩

theorem tagged_w1_success {recur tvb offset tagLen maxlen fdo prefs tagActs A O R}
    (h : dissect_tagged_field recur tvb offset tagLen maxlen 1 fdo prefs tagActs
          = .success A O R) :
    ∃ v, tvb_get_letoh64 tvb (offset + tagLen) = .ok v ∧ O = offset + tagLen + 8 := by
  rcases hx : tvb_get_letoh64 tvb (offset + tagLen) with e | v
  · simp [dissect_tagged_field, hx] at h
  · simp only [dissect_tagged_field, hx] at h
    exact ⟨v, rfl, after_success_cursor h⟩

theorem tagged_w5_success {recur tvb offset tagLen maxlen fdo prefs tagActs A O R}
    (h : dissect_tagged_field recur tvb offset tagLen maxlen 5 fdo prefs tagActs
          = .success A O R) :
    ∃ v, tvb_get_letohl tvb (offset + tagLen) = .ok v ∧ O = offset + tagLen + 4 := by
  rcases hx : tvb_get_letohl tvb (offset + tagLen) with e | v
  · simp [dissect_tagged_field, hx] at h
  · simp only [dissect_tagged_field, hx] at h
    exact ⟨v, rfl, after_success_cursor h⟩

theorem tagged_w2_success {recur tvb offset tagLen maxlen fdo prefs tagActs A O R}
    (h : dissect_tagged_field recur tvb offset tagLen maxlen 2 fdo prefs tagActs
          = .success A O R) :
    ∃ ps L, tvb_get_varint tvb (offset + tagLen) (maxlen - tagLen) = .ok (ps + 1, L)
      ∧ O = offset + tagLen + (ps + 1) + L % 2 ^ 32 := by
  rcases hx : tvb_get_varint tvb (offset + tagLen) (maxlen - tagLen) with e | ⟨n, L⟩
  · simp [dissect_tagged_field, hx] at h
  · cases n with
    | zero => simp [dissect_tagged_field, hx] at h
    | succ ps =>
      simp only [dissect_tagged_field, hx] at h
      have := after_success_cursor h
      exact ⟨ps, L, rfl, by omega⟩

/-- Wire types other than 0, 1, 2, 5 (i.e. 3, 4, 6, 7 after `tag & 7`)
fail with `wireTypeInvalid`, the cursor standing just past the tag. -/
theorem tagged_invalid_wire {recur tvb offset tagLen maxlen w fdo prefs tagActs}
    (h0 : w ≠ 0) (h1 : w ≠ 1) (h2 : w ≠ 2) (h5 : w ≠ 5) :
    dissect_tagged_field recur tvb offset tagLen maxlen w fdo prefs tagActs
      = .failed (tagActs ++ [.expertInfo .wireTypeInvalid]) (offset + tagLen) := by
  unfold dissect_tagged_field
  split
  · omega
  · omega
  · omega
  · omega
  · rfl

theorem tagged_w0_value_fail {recur tvb offset tagLen maxlen fdo prefs tagActs u}
    (hx : tvb_get_varint tvb (offset + tagLen) (maxlen - tagLen) = .ok (0, u)) :
    dissect_tagged_field recur tvb offset tagLen maxlen 0 fdo prefs tagActs
      = .failed (tagActs ++ [.expertInfo .failedParseField]) (offset + tagLen) := by
  simp [dissect_tagged_field, hx]

theorem tagged_w2_prefix_fail {recur tvb offset tagLen maxlen fdo prefs tagActs u}
    (hx : tvb_get_varint tvb (offset + tagLen) (maxlen - tagLen) = .ok (0, u)) :
    dissect_tagged_field recur tvb offset tagLen maxlen 2 fdo prefs tagActs
      = .failed (tagActs ++ [.expertInfo .failedParseLengthDelimitedField]) (offset + tagLen) := by
  simp [dissect_tagged_field, hx]

/-- After a LENGTH_DELIMITED length prefix has parsed, every reported
cursor position (successful or thrown) is past the prefix. -/
theorem tagged_w2_cursor_past_prefix {recur tvb offset tagLen maxlen fdo prefs tagActs ps L O}
    (hx : tvb_get_varint tvb (offset + tagLen) (maxlen - tagLen) = .ok (ps + 1, L))
    (hc : (dissect_tagged_field recur tvb offset tagLen maxlen 2 fdo prefs tagActs).cursor
            = some O) :
    offset + tagLen + (ps + 1) ≤ O := by
  simp only [dissect_tagged_field, hx] at hc
  rcases hres : dissect_field_value_and_advance recur tvb 2 fdo prefs
      (offset + tagLen + (ps + 1)) (L % 2 ^ 32) L (tagActs ++ [Action.valueLengthItem L]) with
    _ | ⟨A', O'⟩ | ⟨A', O'⟩ | ⟨A', O', R'⟩
  · rw [hres] at hc; simp [FieldResult.cursor] at hc
  · rw [hres] at hc
    simp [FieldResult.cursor] at hc
    have := after_thrown_cursor hres
    omega
  · exact absurd hres after_ne_failed
  · rw [hres] at hc
    simp [FieldResult.cursor] at hc
    have := after_success_cursor hres
    omega

/-- A successful field has a wire type among 0, 1, 2, 5. -/
theorem tagged_success_wire {recur tvb offset tagLen maxlen w fdo prefs tagActs A O R}
    (h : dissect_tagged_field recur tvb offset tagLen maxlen w fdo prefs tagActs
          = .success A O R) :
    w = 0 ∨ w = 1 ∨ w = 2 ∨ w = 5 := by
  by_cases h0 : w = 0
  · exact Or.inl h0
  by_cases h1 : w = 1
  · exact Or.inr (Or.inl h1)
  by_cases h2 : w = 2
  · exact Or.inr (Or.inr (Or.inl h2))
  by_cases h5 : w = 5
  · exact Or.inr (Or.inr (Or.inr h5))
  rw [tagged_invalid_wire h0 h1 h2 h5] at h
  exact absurd h (by simp)

theorem leafTypes_append (xs ys : List Action) :
    leafTypes (xs ++ ys) = leafTypes xs ++ leafTypes ys := by
  simp [leafTypes, List.filterMap_append]

/-- The rendering route of a successful field is the packed-repeated
expander exactly when a field descriptor resolved with both `is_packed`
and `is_repeated`, and the ordinary schema renderer exactly when one
resolved without that conjunction — independently of the wire type. -/
theorem after_route {recur tvb w fdo prefs off2 vl v acts A O R}
    (h : dissect_field_value_and_advance recur tvb w fdo prefs off2 vl v acts
          = .success A O R) :
    (R = .packedExpander ↔ ∃ fd, fdo = some fd ∧ (fd.is_packed && fd.is_repeated) = true)
    ∧ (R = .schemaRenderer ↔ ∃ fd, fdo = some fd ∧ (fd.is_packed && fd.is_repeated) = false) := by
  unfold dissect_field_value_and_advance at h
  split at h
  case isFalse => exact absurd h (by simp)
  case isTrue hb =>
    split at h
    case h_1 fd =>
      split at h
      case isTrue hc =>
        rw [packedToField_success_iff] at h
        obtain ⟨n, a, hx, hA, hO, hR⟩ := h
        subst hR
        cases hp : fd.is_packed <;> cases hr : fd.is_repeated <;> simp_all
      case isFalse hc =>
        rw [renderToField_success_iff] at h
        obtain ⟨a, hx, hA, hO, hR⟩ := h
        subst hR
        simp only [Bool.not_eq_true] at hc
        cases hp : fd.is_packed <;> cases hr : fd.is_repeated <;> simp_all
    case h_2 =>
      split at h
      all_goals
        rw [renderToField_success_iff] at h
        obtain ⟨a, hx, hA, hO, hR⟩ := h
        subst hR
        simp

/-- Leaf types of a successful unknown field with
`show_all_possible_field_types` off: the single representative type of
packet-protobuf.c:683-693. -/
theorem after_fallback_leaves {recur tvb w prefs off2 vl v acts A O R}
    (hs : prefs.show_all_possible_field_types = false)
    (h : dissect_field_value_and_advance recur tvb w none prefs off2 vl v acts
          = .success A O R) :
    R = .fallbackSingle
    ∧ leafTypes A = leafTypes acts ++
        (if w = 2 then (if prefs.try_dissect_as_string then [ProtobufType.STRING] else [])
         else [if v ≤ 0xFFFFFFFF then ProtobufType.UINT32 else ProtobufType.UINT64]) := by
  unfold dissect_field_value_and_advance at h
  split at h
  case isFalse => exact absurd h (by simp)
  case isTrue hb =>
    simp only [hs, Bool.false_eq_true, if_false] at h
    rw [renderToField_success_iff] at h
    obtain ⟨a, hx, hA, hO, hR⟩ := h
    subst hR
    refine ⟨rfl, ?_⟩
    subst hA
    by_cases hw : w = 2
    · by_cases ht : prefs.try_dissect_as_string
      · simp only [hw, ht, if_true, if_pos] at hx ⊢
        simp [protobuf_try_dissect_field_value_on_multi_types,
              protobuf_dissect_field_value, RRes.seq, hb] at hx
        subst hx
        simp [leafTypes_append, leafTypes]
      · simp only [hw, ht, if_true, Bool.false_eq_true, if_false] at hx ⊢
        simp [protobuf_try_dissect_field_value_on_multi_types] at hx
        subst hx
        simp [leafTypes_append, leafTypes]
    · by_cases hv : v ≤ 0xFFFFFFFF
      · simp only [hw, hv, if_false, if_true, if_neg, if_pos] at hx ⊢
        simp [protobuf_try_dissect_field_value_on_multi_types,
              protobuf_dissect_field_value, RRes.seq] at hx
        subst hx
        simp [leafTypes_append, leafTypes]
      · simp only [hw, hv, if_false, if_neg] at hx ⊢
        simp [protobuf_try_dissect_field_value_on_multi_types,
              protobuf_dissect_field_value, RRes.seq] at hx
        subst hx
        simp [leafTypes_append, leafTypes]

theorem tagged_w0_eq_after {recur tvb offset tagLen maxlen fdo prefs tagActs vl v}
    (hx : tvb_get_varint tvb (offset + tagLen) (maxlen - tagLen) = .ok (vl + 1, v)) :
    dissect_tagged_field recur tvb offset tagLen maxlen 0 fdo prefs tagActs
      = dissect_field_value_and_advance recur tvb 0 fdo prefs (offset + tagLen) (vl + 1) v
          tagActs := by
  simp [dissect_tagged_field, hx]

theorem tagged_w1_eq_after {recur tvb offset tagLen maxlen fdo prefs tagActs v}
    (hx : tvb_get_letoh64 tvb (offset + tagLen) = .ok v) :
    dissect_tagged_field recur tvb offset tagLen maxlen 1 fdo prefs tagActs
      = dissect_field_value_and_advance recur tvb 1 fdo prefs (offset + tagLen) 8 v tagActs := by
  simp [dissect_tagged_field, hx]

theorem tagged_w5_eq_after {recur tvb offset tagLen maxlen fdo prefs tagActs v}
    (hx : tvb_get_letohl tvb (offset + tagLen) = .ok v) :
    dissect_tagged_field recur tvb offset tagLen maxlen 5 fdo prefs tagActs
      = dissect_field_value_and_advance recur tvb 5 fdo prefs (offset + tagLen) 4 v tagActs := by
  simp [dissect_tagged_field, hx]

theorem tagged_w2_eq_after {recur tvb offset tagLen maxlen fdo prefs tagActs ps L}
    (hx : tvb_get_varint tvb (offset + tagLen) (maxlen - tagLen) = .ok (ps + 1, L)) :
    dissect_tagged_field recur tvb offset tagLen maxlen 2 fdo prefs tagActs
      = dissect_field_value_and_advance recur tvb 2 fdo prefs (offset + tagLen + (ps + 1))
          (L % 2 ^ 32) L (tagActs ++ [.valueLengthItem L]) := by
  simp [dissect_tagged_field, hx]

/-- Every successfully decoded field strictly advances the cursor (the
tag varint is at least one byte long). -/
theorem dissect_one_success_advance {recur tvb offset maxlen desc prefs A O R}
    (h : dissect_one_protobuf_field recur tvb offset maxlen desc prefs = .success A O R) :
    offset < O := by
  rcases htag : tvb_get_varint tvb offset maxlen with e | ⟨n, tv⟩
  · rw [dissect_one_tag_throw htag] at h
    exact absurd h (by simp)
  · cases n with
    | zero =>
      rw [dissect_one_tag_fail htag] at h
      exact absurd h (by simp)
    | succ tl =>
      rw [dissect_one_eq_tagged htag] at h
      rcases tagged_success_wire h with hw | hw | hw | hw <;> rw [hw] at h
      · obtain ⟨vl, v, hx, hO⟩ := tagged_w0_success h
        omega
      · obtain ⟨v, hx, hO⟩ := tagged_w1_success h
        omega
      · obtain ⟨ps, L, hx, hO⟩ := tagged_w2_success h
        omega
      · obtain ⟨v, hx, hO⟩ := tagged_w5_success h
        omega

/-- Helper: XOR with an all-ones mask `2^n - 1` complements a value below
`2^n`. -/
theorem xor_two_pow_sub_one_eq (n : Nat) :
    ∀ u : Nat, u < 2 ^ n → u ^^^ (2 ^ n - 1) = 2 ^ n - 1 - u := by
  induction n with
  | zero =>
    intro u hu
    interval_cases u
    rfl
  | succ n ih =>
    intro u hu
    have hps : (2:Nat) ^ (n + 1) = 2 ^ n * 2 := Nat.pow_succ ..
    have hpos : (0:Nat) < 2 ^ n := Nat.pos_pow_of_pos n (by norm_num)
    have hd : (u ^^^ (2 ^ (n+1) - 1)) / 2 = u / 2 ^^^ (2 ^ (n+1) - 1) / 2 := Nat.xor_div_two
    have hhalf : (2 ^ (n+1) - 1) / 2 = 2 ^ n - 1 := by omega
    have hih : u / 2 ^^^ (2 ^ n - 1) = 2 ^ n - 1 - u / 2 := ih (u / 2) (by omega)
    rw [hhalf, hih] at hd
    have hone : (2 ^ (n+1) - 1) % 2 = 1 := by omega
    have hm := @Nat.xor_mod_two_eq_one u (2 ^ (n+1) - 1)
    have hdm := Nat.div_add_mod (u ^^^ (2 ^ (n+1) - 1)) 2
    rcases Nat.mod_two_eq_zero_or_one u with h2 | h2
    · have ha : (u ^^^ (2 ^ (n+1) - 1)) % 2 = 1 := by
        rw [hm]
        simp [h2, hone]
      omega
    · have ha : (u ^^^ (2 ^ (n+1) - 1)) % 2 ≠ 1 := by
        rw [Ne, hm]
        simp [h2, hone]
      omega

/-- Helper: the arithmetic-shift mask `((gint32)u << 31 >> 31)` of
`sint32_decode`, as a 32-bit pattern, is all-ones when `u` is odd and zero
when `u` is even. -/
theorem sint32_mask_eq (u : Nat) :
    toUInt32n (Int.fdiv (toInt32 ((u <<< 31) % 2 ^ 32)) (2 ^ 31))
      = if u % 2 = 1 then 2 ^ 32 - 1 else 0 := by
  have h1 : (u <<< 31) % 2 ^ 32 = u % 2 * 2 ^ 31 := by
    rw [Nat.shiftLeft_eq]
    have h32 : (2:Nat) ^ 32 = 2 ^ 31 * 2 := by norm_num
    rw [h32, Nat.mul_comm u (2 ^ 31), Nat.mul_mod_mul_left, Nat.mul_comm]
  rw [h1]
  rcases Nat.mod_two_eq_zero_or_one u with h2 | h2 <;> rw [h2] <;> simp <;> decide

/-- Helper: the 64-bit analogue of `sint32_mask_eq`. -/
theorem sint64_mask_eq (u : Nat) :
    toUInt64n (Int.fdiv (toInt64 ((u <<< 63) % 2 ^ 64)) (2 ^ 63))
      = if u % 2 = 1 then 2 ^ 64 - 1 else 0 := by
  have h1 : (u <<< 63) % 2 ^ 64 = u % 2 * 2 ^ 63 := by
    rw [Nat.shiftLeft_eq]
    have h64 : (2:Nat) ^ 64 = 2 ^ 63 * 2 := by norm_num
    rw [h64, Nat.mul_comm u (2 ^ 63), Nat.mul_mod_mul_left, Nat.mul_comm]
  rw [h1]
  rcases Nat.mod_two_eq_zero_or_one u with h2 | h2 <;> rw [h2] <;> simp <;> decide

/-- Helper: 32-bit zig-zag round trip. -/
theorem zz32_roundtrip (n : Int) (h1 : -2 ^ 31 ≤ n) (h2 : n < 2 ^ 31) :
    sint32_decode (zigzag_encode32 n) = n := by
  unfold zigzag_encode32 sint32_decode
  have hfd : Int.fdiv n (2 ^ 31) = n / 2 ^ 31 := Int.fdiv_eq_ediv n (by norm_num)
  rw [hfd]
  by_cases hn : 0 ≤ n
  · have hz : n / 2 ^ 31 = 0 := by omega
    have e1 : toUInt32n (n * 2) = 2 * n.toNat := by unfold toUInt32n; omega
    have e2 : toUInt32n (0 : Int) = 0 := by decide
    rw [hz, e1, e2, Nat.xor_zero]
    have hsr : (2 * n.toNat) >>> 1 = n.toNat := by
      rw [Nat.shiftRight_eq_div_pow]
      omega
    rw [hsr, sint32_mask_eq]
    rw [if_neg (by omega), Nat.xor_zero]
    unfold toInt32
    split <;> omega
  · have e1 : toUInt32n (n * 2) = (2 ^ 32 + 2 * n).toNat := by unfold toUInt32n; omega
    have hz : n / 2 ^ 31 = -1 := by omega
    have e2 : toUInt32n (-1 : Int) = 2 ^ 32 - 1 := by decide
    rw [hz, e1, e2]
    have hlt : (2 ^ 32 + 2 * n).toNat < 2 ^ 32 := by omega
    rw [xor_two_pow_sub_one_eq 32 _ hlt]
    have hval : 2 ^ 32 - 1 - (2 ^ 32 + 2 * n).toNat = (-2 * n - 1).toNat := by omega
    rw [hval]
    have hsr : (-2 * n - 1).toNat >>> 1 = (-n - 1).toNat := by
      rw [Nat.shiftRight_eq_div_pow]
      omega
    rw [hsr, sint32_mask_eq]
    have hodd : (-2 * n - 1).toNat % 2 = 1 := by omega
    rw [if_pos hodd]
    have hlt2 : (-n - 1).toNat < 2 ^ 32 := by omega
    rw [xor_two_pow_sub_one_eq 32 _ hlt2]
    unfold toInt32
    split <;> omega

/-- Helper: 64-bit zig-zag round trip. -/
theorem zz64_roundtrip (n : Int) (h1 : -2 ^ 63 ≤ n) (h2 : n < 2 ^ 63) :
    sint64_decode (zigzag_encode64 n) = n := by
  unfold zigzag_encode64 sint64_decode
  have hfd : Int.fdiv n (2 ^ 63) = n / 2 ^ 63 := Int.fdiv_eq_ediv n (by norm_num)
  rw [hfd]
  by_cases hn : 0 ≤ n
  · have hz : n / 2 ^ 63 = 0 := by omega
    have e1 : toUInt64n (n * 2) = 2 * n.toNat := by unfold toUInt64n; omega
    have e2 : toUInt64n (0 : Int) = 0 := by decide
    rw [hz, e1, e2, Nat.xor_zero]
    have hsr : (2 * n.toNat) >>> 1 = n.toNat := by
      rw [Nat.shiftRight_eq_div_pow]
      omega
    rw [hsr, sint64_mask_eq]
    rw [if_neg (by omega), Nat.xor_zero]
    unfold toInt64
    split <;> omega
  · have e1 : toUInt64n (n * 2) = (2 ^ 64 + 2 * n).toNat := by unfold toUInt64n; omega
    have hz : n / 2 ^ 63 = -1 := by omega
    have e2 : toUInt64n (-1 : Int) = 2 ^ 64 - 1 := by decide
    rw [hz, e1, e2]
    have hlt : (2 ^ 64 + 2 * n).toNat < 2 ^ 64 := by omega
    rw [xor_two_pow_sub_one_eq 64 _ hlt]
    have hval : 2 ^ 64 - 1 - (2 ^ 64 + 2 * n).toNat = (-2 * n - 1).toNat := by omega
    rw [hval]
    have hsr : (-2 * n - 1).toNat >>> 1 = (-n - 1).toNat := by
      rw [Nat.shiftRight_eq_div_pow]
      omega
    rw [hsr, sint64_mask_eq]
    have hodd : (-2 * n - 1).toNat % 2 = 1 := by omega
    rw [if_pos hodd]
    have hlt2 : (-n - 1).toNat < 2 ^ 64 := by omega
    rw [xor_two_pow_sub_one_eq 64 _ hlt2]
    unfold toInt64
    split <;> omega

/-- Claim C4: zig-zag decoding is the inverse of zig-zag encoding: for
every signed 32-bit integer `n`, `sint32_decode ((n <<< 1) ^^^ (n >>> 31))
= n` with `>>` arithmetic on the signed operand (the encoder being
`zigzag_encode32`), and analogously at 64 bits. -/
theorem c4_zigzag_decode_inverse :
    (∀ n : Int, -2 ^ 31 ≤ n → n < 2 ^ 31 → sint32_decode (zigzag_encode32 n) = n)
    ∧ (∀ n : Int, -2 ^ 63 ≤ n → n < 2 ^ 63 → sint64_decode (zigzag_encode64 n) = n) :=
  ⟨zz32_roundtrip, zz64_roundtrip⟩

/-- Witness for C4 at the concrete inputs `-123` (32-bit) and `-2^40`
(64-bit). -/
theorem c4_zigzag_decode_inverse_witness :
    sint32_decode (zigzag_encode32 (-123)) = -123
    ∧ sint64_decode (zigzag_encode64 (-(2 ^ 40))) = -(2 ^ 40) :=
  ⟨c4_zigzag_decode_inverse.1 (-123) (by norm_num) (by norm_num),
   c4_zigzag_decode_inverse.2 (-(2 ^ 40)) (by norm_num) (by norm_num)⟩



/-- Claim C1 (code bug in the source): decoding the unknown field
`0D 01 00 00 00` (tag: field 1, wire type FIXED32; value bytes
`01 00 00 00`) with `show_all_possible_field_types` on renders the value
under the declared types FIXED32, SINT32, FLOAT — not
{FIXED32, SFIXED32, FLOAT} as the claim states.  The FIXED32 row of
`protobuf_wire_to_field_type` (packet-protobuf.c:89) contains
`PROTOBUF_TYPE_SINT32` where the source's own overview comment
(packet-protobuf.c:568, "32-bit (fixed32, sfixed32, float)") and the
protobuf encoding it cites require SFIXED32; SINT32 is a varint type and
already appears in the VARINT row. -/
theorem c1_fixed32_row_code_bug :
    leafTypes (FieldResult.actions (dissect_one_protobuf_field recurNone
        [0x0D, 0x01, 0x00, 0x00, 0x00] 0 5 none prefsShowAll))
      = [.FIXED32, .SINT32, .FLOAT]
    ∧ protobuf_wire_to_field_type.getD PROTOBUF_WIRETYPE_FIXED32 []
      = [.FIXED32, .SINT32, .FLOAT, .NONE]
    ∧ ProtobufType.SFIXED32 ∉ leafTypes (FieldResult.actions (dissect_one_protobuf_field
        recurNone [0x0D, 0x01, 0x00, 0x00, 0x00] 0 5 none prefsShowAll)) := by
  decide

/-- Counterexample to claim C2: the field `08 96 01` (field 1, wire type
VARINT, value 150) whose descriptor is repeated+packed INT32 is routed to
the packed-repeated expander (note the `repeatedItem` container and the
`packedExpander` route) even though the wire type is not
LENGTH_DELIMITED: `dissect_one_protobuf_field` (packet-protobuf.c:672)
tests only `is_packed_repeated`, never the wire type. -/
theorem c2_packed_invoked_on_varint_wire_counterexample :
    dissect_one_protobuf_field recurNone [0x08, 0x96, 0x01] 0 3 (some descPackedInt32) prefsOff
      = .success [.fieldNumberItem 1, .wireTypeItem 0, .fieldNameItem "f",
          .fieldTypeItem .INT32, .valueBytesItem 1 2, .repeatedItem 1 2,
          .typedLeaf .INT32 1 2 150, .packedEnd] 3 .packedExpander := by
  decide

/-- Counterexample to claim C3: expanding the packed INT32 payload `80`
(a lone continuation byte, so the element fails to varint-parse) returns
0 consumed bytes and commits no element leaves, but emits no
`failed_parse_packed_repeated_field` diagnostic — the varint failure path
(packet-protobuf.c:319-323) returns silently. -/
theorem c3_varint_packed_failure_silent_counterexample :
    dissect_packed_repeated_field_values recurNone [0x80] 0 1 2 .INT32 none prefsOff
      = .ret 0 [.repeatedItem 0 1]
    ∧ Action.expertInfo .failedParsePackedRepeatedField
        ∉ (dissect_packed_repeated_field_values recurNone [0x80] 0 1 2 .INT32 none prefsOff).actions := by
  decide

/-- Counterexample to claim C5: for the field `0A 80 80 80 80 10`
(field 1, LENGTH_DELIMITED, length-prefix varint of value `2^32`) the
decoder succeeds and advances the cursor by 6 bytes — tag (1) plus prefix
(5) plus `2^32 % 2^32 = 0` value bytes, the C cast `(guint)value_uint64`
(packet-protobuf.c:651) having truncated the decoded prefix value — not by
`1 + 5 + 2^32` as the claim's "the decoded prefix value" requires. -/
theorem c5_length_prefix_truncated_counterexample :
    dissect_one_protobuf_field recurNone [0x0A, 0x80, 0x80, 0x80, 0x80, 0x10] 0 6 none prefsOff
      = .success [.fieldNumberItem 1, .wireTypeItem 2, .fieldNameItem "<UNKNOWN>",
          .valueLengthItem 4294967296, .valueBytesItem 6 0] 6 .fallbackSingle
    ∧ (6 : Nat) ≠ 1 + 5 + 4294967296 := by
  decide

/-- Counterexample to claim C7: the field `00 05` has tag 0, hence
field_number 0 (and wire type VARINT); `dissect_one_protobuf_field` never
tests the field number, decodes the field normally and returns TRUE — it
does not report a failure. -/
theorem c7_field_number_zero_accepted_counterexample :
    dissect_one_protobuf_field recurNone [0x00, 0x05] 0 2 none prefsOff
      = .success [.fieldNumberItem 0, .wireTypeItem 0, .fieldNameItem "<UNKNOWN>",
          .valueBytesItem 1 1, .typedLeaf .UINT32 1 1 5] 2 .fallbackSingle := by
  decide

/-- Counterexample to claim C8: a zero-length packed DOUBLE payload
passes the `length % value_size != 0` test (packet-protobuf.c:360), so the
expansion completes successfully with zero elements (note the `packedEnd`
marker) and no `failed_parse_packed_repeated_field` diagnostic — the
claim requires a zero-length payload to fail. -/
theorem c8_zero_length_accepted_counterexample :
    dissect_packed_repeated_field_values recurNone [] 0 0 2 .DOUBLE none prefsOff
      = .ret 0 [.repeatedItem 0 0, .packedEnd]
    ∧ Action.expertInfo .failedParsePackedRepeatedField
        ∉ (dissect_packed_repeated_field_values recurNone [] 0 0 2 .DOUBLE none prefsOff).actions := by
  decide

/-- Claim C5 (amended): for every field decoded successfully the cursor
advance equals the tag-varint length, plus the length-prefix varint
length for LENGTH_DELIMITED, plus the value length — where the
LENGTH_DELIMITED value length is the decoded prefix value reduced modulo
`2^32` (the C cast `(guint)value_uint64`), 8 for FIXED64, 4 for FIXED32,
and the value varint's length for VARINT — with no other slack. -/
theorem c5_cursor_advance_amended {recur tvb offset maxlen desc prefs A O R}
    (h : dissect_one_protobuf_field recur tvb offset maxlen desc prefs = .success A O R) :
    ∃ tl tv, tvb_get_varint tvb offset maxlen = .ok (tl + 1, tv)
      ∧ ((tv &&& 7 = 0 ∧ ∃ vl v,
            tvb_get_varint tvb (offset + (tl + 1)) (maxlen - (tl + 1)) = .ok (vl + 1, v)
            ∧ O = offset + (tl + 1) + (vl + 1))
         ∨ (tv &&& 7 = 1 ∧ O = offset + (tl + 1) + 8)
         ∨ (tv &&& 7 = 5 ∧ O = offset + (tl + 1) + 4)
         ∨ (tv &&& 7 = 2 ∧ ∃ ps L,
            tvb_get_varint tvb (offset + (tl + 1)) (maxlen - (tl + 1)) = .ok (ps + 1, L)
            ∧ O = offset + (tl + 1) + (ps + 1) + L % 2 ^ 32)) := by
  rcases htag : tvb_get_varint tvb offset maxlen with e | ⟨n, tv⟩
  · rw [dissect_one_tag_throw htag] at h
    exact absurd h (by simp)
  · cases n with
    | zero =>
      rw [dissect_one_tag_fail htag] at h
      exact absurd h (by simp)
    | succ tl =>
      rw [dissect_one_eq_tagged htag] at h
      refine ⟨tl, tv, rfl, ?_⟩
      rcases tagged_success_wire h with hw | hw | hw | hw <;> rw [hw] at h
      · exact Or.inl ⟨hw, tagged_w0_success h⟩
      · obtain ⟨v, hx, hO⟩ := tagged_w1_success h
        exact Or.inr (Or.inl ⟨hw, hO⟩)
      · obtain ⟨ps, L, hx, hO⟩ := tagged_w2_success h
        exact Or.inr (Or.inr (Or.inr ⟨hw, ps, L, hx, hO⟩))
      · obtain ⟨v, hx, hO⟩ := tagged_w5_success h
        exact Or.inr (Or.inr (Or.inl ⟨hw, hO⟩))

/-- Witness for C5 at the concrete field `08 96 01`. -/
theorem c5_cursor_advance_amended_witness :
    ∃ tl tv, tvb_get_varint [0x08, 0x96, 0x01] 0 3 = .ok (tl + 1, tv)
      ∧ ((tv &&& 7 = 0 ∧ ∃ vl v,
            tvb_get_varint [0x08, 0x96, 0x01] (0 + (tl + 1)) (3 - (tl + 1)) = .ok (vl + 1, v)
            ∧ 3 = 0 + (tl + 1) + (vl + 1))
         ∨ (tv &&& 7 = 1 ∧ 3 = 0 + (tl + 1) + 8)
         ∨ (tv &&& 7 = 5 ∧ 3 = 0 + (tl + 1) + 4)
         ∨ (tv &&& 7 = 2 ∧ ∃ ps L,
            tvb_get_varint [0x08, 0x96, 0x01] (0 + (tl + 1)) (3 - (tl + 1)) = .ok (ps + 1, L)
            ∧ 3 = 0 + (tl + 1) + (ps + 1) + L % 2 ^ 32)) :=
  @c5_cursor_advance_amended recurNone [0x08, 0x96, 0x01] 0 3 none prefsOff
    [.fieldNumberItem 1, .wireTypeItem 0, .fieldNameItem "<UNKNOWN>",
     .valueBytesItem 1 2, .typedLeaf .UINT32 1 2 150] 3 .fallbackSingle
    (by decide)

/-- Claim C2 (amended): the rendering route of a successfully decoded
field is the packed-repeated expander exactly when the resolved field
descriptor has `is_packed ∧ is_repeated`, for every observed wire type
(the code never tests the wire type in this dispatch), and the ordinary
value renderer exactly when a descriptor resolved without that
conjunction. -/
theorem c2_packed_dispatch_amended {recur tvb offset maxlen desc prefs A O R tl tv}
    (htag : tvb_get_varint tvb offset maxlen = .ok (tl + 1, tv))
    (h : dissect_one_protobuf_field recur tvb offset maxlen desc prefs = .success A O R) :
    (R = .packedExpander ↔ ∃ fd,
        (desc.bind fun md => pbw_Descriptor_FindFieldByNumber md (toInt32 (tv >>> 3)))
          = some fd
        ∧ (fd.is_packed && fd.is_repeated) = true)
    ∧ (R = .schemaRenderer ↔ ∃ fd,
        (desc.bind fun md => pbw_Descriptor_FindFieldByNumber md (toInt32 (tv >>> 3)))
          = some fd
        ∧ (fd.is_packed && fd.is_repeated) = false) := by
  rw [dissect_one_eq_tagged htag] at h
  rcases tagged_success_wire h with hw | hw | hw | hw <;> rw [hw] at h
  · obtain ⟨vl, v, hx, _⟩ := tagged_w0_success h
    rw [tagged_w0_eq_after hx] at h
    exact after_route h
  · obtain ⟨v, hx, _⟩ := tagged_w1_success h
    rw [tagged_w1_eq_after hx] at h
    exact after_route h
  · obtain ⟨ps, L, hx, _⟩ := tagged_w2_success h
    rw [tagged_w2_eq_after hx] at h
    exact after_route h
  · obtain ⟨v, hx, _⟩ := tagged_w5_success h
    rw [tagged_w5_eq_after hx] at h
    exact after_route h

/-- Witness for C2 at the concrete packed-repeated INT32 field `08 96 01`
arriving with wire type VARINT. -/
theorem c2_packed_dispatch_amended_witness :
    (Route.packedExpander = Route.packedExpander ↔ ∃ fd,
        ((some descPackedInt32).bind fun md =>
            pbw_Descriptor_FindFieldByNumber md (toInt32 ((8 : Nat) >>> 3))) = some fd
        ∧ (fd.is_packed && fd.is_repeated) = true)
    ∧ (Route.packedExpander = Route.schemaRenderer ↔ ∃ fd,
        ((some descPackedInt32).bind fun md =>
            pbw_Descriptor_FindFieldByNumber md (toInt32 ((8 : Nat) >>> 3))) = some fd
        ∧ (fd.is_packed && fd.is_repeated) = false) :=
  @c2_packed_dispatch_amended recurNone [0x08, 0x96, 0x01] 0 3 (some descPackedInt32) prefsOff
    [.fieldNumberItem 1, .wireTypeItem 0, .fieldNameItem "f",
     .fieldTypeItem .INT32, .valueBytesItem 1 2, .repeatedItem 1 2,
     .typedLeaf .INT32 1 2 150, .packedEnd] 3 .packedExpander 0 8
    rfl (by decide)

/-- Claim C7 (amended): a decoded tag whose wire type is not 0, 1, 2 or 5
(i.e. 3, 4, 6 or 7) makes the field decoder emit `wire_type_invalid` and
return FALSE with the cursor just past the tag; a field number of 0 is
not checked and does not cause a failure (see the counterexample). -/
theorem c7_invalid_wire_types_rejected_amended {recur tvb offset maxlen desc prefs tl tv}
    (htag : tvb_get_varint tvb offset maxlen = .ok (tl + 1, tv))
    (h0 : tv &&& 7 ≠ 0) (h1 : tv &&& 7 ≠ 1) (h2 : tv &&& 7 ≠ 2) (h5 : tv &&& 7 ≠ 5) :
    dissect_one_protobuf_field recur tvb offset maxlen desc prefs
      = .failed (([Action.fieldNumberItem (tv >>> 3), Action.wireTypeItem (tv &&& 7)]
            ++ fieldNameActions (desc.bind fun md =>
                pbw_Descriptor_FindFieldByNumber md (toInt32 (tv >>> 3))))
          ++ [.expertInfo .wireTypeInvalid]) (offset + (tl + 1)) := by
  rw [dissect_one_eq_tagged htag]
  exact tagged_invalid_wire h0 h1 h2 h5

/-- Witness for C7 at the concrete tag byte `0F` (field 1, wire type 7). -/
theorem c7_invalid_wire_types_rejected_amended_witness :
    dissect_one_protobuf_field recurNone [0x0F] 0 1 none prefsOff
      = .failed (([Action.fieldNumberItem ((15 : Nat) >>> 3),
            Action.wireTypeItem ((15 : Nat) &&& 7)]
            ++ fieldNameActions ((none : Option PbwDescriptor).bind fun md =>
                pbw_Descriptor_FindFieldByNumber md (toInt32 ((15 : Nat) >>> 3))))
          ++ [.expertInfo .wireTypeInvalid]) (0 + (0 + 1)) :=
  @c7_invalid_wire_types_rejected_amended recurNone [0x0F] 0 1 none prefsOff 0 15
    rfl (by decide) (by decide) (by decide) (by decide)

/-- Claim C9: for every unknown field (no field descriptor resolved)
decoded successfully with `show_all_possible_field_types` off, exactly one
representative declared type is rendered: STRING when the wire type is
LENGTH_DELIMITED and `try_dissect_as_string` is on; no typed leaf when it
is off; UINT32 when the wire type is VARINT, FIXED32 or FIXED64 and the
raw 64-bit value is at most `0xFFFFFFFF`; UINT64 otherwise. -/
theorem c9_fallback_representative_type {recur tvb offset maxlen desc prefs A O R tl tv}
    (hshow : prefs.show_all_possible_field_types = false)
    (htag : tvb_get_varint tvb offset maxlen = .ok (tl + 1, tv))
    (hfd : (desc.bind fun md => pbw_Descriptor_FindFieldByNumber md (toInt32 (tv >>> 3)))
            = none)
    (h : dissect_one_protobuf_field recur tvb offset maxlen desc prefs = .success A O R) :
    R = .fallbackSingle
    ∧ (tv &&& 7 = 2 →
        leafTypes A = if prefs.try_dissect_as_string then [ProtobufType.STRING] else [])
    ∧ (tv &&& 7 = 0 → ∀ vl v,
        tvb_get_varint tvb (offset + (tl + 1)) (maxlen - (tl + 1)) = .ok (vl + 1, v) →
        leafTypes A = [if v ≤ 0xFFFFFFFF then ProtobufType.UINT32 else ProtobufType.UINT64])
    ∧ (tv &&& 7 = 1 → ∀ v, tvb_get_letoh64 tvb (offset + (tl + 1)) = .ok v →
        leafTypes A = [if v ≤ 0xFFFFFFFF then ProtobufType.UINT32 else ProtobufType.UINT64])
    ∧ (tv &&& 7 = 5 → ∀ v, tvb_get_letohl tvb (offset + (tl + 1)) = .ok v →
        leafTypes A = [if v ≤ 0xFFFFFFFF then ProtobufType.UINT32 else ProtobufType.UINT64]) := by
  rw [dissect_one_eq_tagged htag, hfd] at h
  have hLT0 : ∀ w : Nat, leafTypes ([Action.fieldNumberItem (tv >>> 3), Action.wireTypeItem w]
      ++ fieldNameActions (none : Option PbwFieldDescriptor)) = [] := by
    intro w
    simp [leafTypes, fieldNameActions]
  rcases tagged_success_wire h with hw | hw | hw | hw <;> rw [hw] at h
  · obtain ⟨vl, v, hx, hO⟩ := tagged_w0_success h
    rw [tagged_w0_eq_after hx] at h
    obtain ⟨hR, hL⟩ := after_fallback_leaves hshow h
    rw [hLT0 0] at hL
    simp only [List.nil_append] at hL
    refine ⟨hR, fun h2 => by omega, ?_, fun h1 => by omega, fun h5 => by omega⟩
    intro _ vl' v' hx'
    rw [hx] at hx'
    injection hx' with hx''
    injection hx'' with hvl hv
    subst hv
    simpa using hL
  · obtain ⟨v, hx, hO⟩ := tagged_w1_success h
    rw [tagged_w1_eq_after hx] at h
    obtain ⟨hR, hL⟩ := after_fallback_leaves hshow h
    rw [hLT0 1] at hL
    simp only [List.nil_append] at hL
    refine ⟨hR, fun h2 => by omega, fun h0 => by omega, ?_, fun h5 => by omega⟩
    intro _ v' hx'
    rw [hx] at hx'
    injection hx' with hv
    subst hv
    simpa using hL
  · obtain ⟨ps, L, hx, hO⟩ := tagged_w2_success h
    rw [tagged_w2_eq_after hx] at h
    obtain ⟨hR, hL⟩ := after_fallback_leaves hshow h
    have hLT1 : leafTypes (([Action.fieldNumberItem (tv >>> 3), Action.wireTypeItem 2]
        ++ fieldNameActions (none : Option PbwFieldDescriptor))
        ++ [Action.valueLengthItem L]) = [] := by
      simp [leafTypes, fieldNameActions]
    rw [hLT1] at hL
    simp only [List.nil_append] at hL
    refine ⟨hR, ?_, fun h0 => by omega, fun h1 => by omega, fun h5 => by omega⟩
    intro _
    simpa using hL
  · obtain ⟨v, hx, hO⟩ := tagged_w5_success h
    rw [tagged_w5_eq_after hx] at h
    obtain ⟨hR, hL⟩ := after_fallback_leaves hshow h
    rw [hLT0 5] at hL
    simp only [List.nil_append] at hL
    refine ⟨hR, fun h2 => by omega, fun h0 => by omega, fun h1 => by omega, ?_⟩
    intro _ v' hx'
    rw [hx] at hx'
    injection hx' with hv
    subst hv
    simpa using hL

/-- Witness for C9 at the concrete unknown field `08 96 01` (VARINT,
value 150 ≤ 0xFFFFFFFF, so UINT32 is chosen). -/
theorem c9_fallback_representative_type_witness :
    leafTypes [Action.fieldNumberItem 1, Action.wireTypeItem 0,
        Action.fieldNameItem "<UNKNOWN>", Action.valueBytesItem 1 2,
        Action.typedLeaf .UINT32 1 2 150]
      = [if (150 : Nat) ≤ 0xFFFFFFFF then ProtobufType.UINT32 else ProtobufType.UINT64] :=
  (@c9_fallback_representative_type recurNone [0x08, 0x96, 0x01] 0 3 none prefsOff
    [.fieldNumberItem 1, .wireTypeItem 0, .fieldNameItem "<UNKNOWN>",
     .valueBytesItem 1 2, .typedLeaf .UINT32 1 2 150] 3 .fallbackSingle 0 8
    rfl rfl rfl (by decide)).2.2.1 rfl 1 150 rfl

/-- Claim C10: failure of the field decoder is not atomic with respect to
the cursor: a failed tag varint leaves the cursor unchanged; an invalid
wire type or a failed value/length varint leaves it just past the tag;
and once a LENGTH_DELIMITED length prefix has parsed, every reported
cursor position is past the prefix. -/
theorem c10_failure_cursor_positions {recur tvb offset maxlen desc prefs} :
    (∀ u, tvb_get_varint tvb offset maxlen = .ok (0, u) →
       dissect_one_protobuf_field recur tvb offset maxlen desc prefs
         = .failed [.expertInfo .failedParseTag] offset)
    ∧ (∀ tl tv, tvb_get_varint tvb offset maxlen = .ok (tl + 1, tv) →
        (tv &&& 7 ≠ 0 → tv &&& 7 ≠ 1 → tv &&& 7 ≠ 2 → tv &&& 7 ≠ 5 →
          ∃ a, dissect_one_protobuf_field recur tvb offset maxlen desc prefs
                 = .failed a (offset + (tl + 1)))
        ∧ (tv &&& 7 = 0 → ∀ u,
            tvb_get_varint tvb (offset + (tl + 1)) (maxlen - (tl + 1)) = .ok (0, u) →
            ∃ a, dissect_one_protobuf_field recur tvb offset maxlen desc prefs
                   = .failed a (offset + (tl + 1)))
        ∧ (tv &&& 7 = 2 → ∀ u,
            tvb_get_varint tvb (offset + (tl + 1)) (maxlen - (tl + 1)) = .ok (0, u) →
            ∃ a, dissect_one_protobuf_field recur tvb offset maxlen desc prefs
                   = .failed a (offset + (tl + 1)))
        ∧ (tv &&& 7 = 2 → ∀ ps L,
            tvb_get_varint tvb (offset + (tl + 1)) (maxlen - (tl + 1)) = .ok (ps + 1, L) →
            ∀ O, (dissect_one_protobuf_field recur tvb offset maxlen desc prefs).cursor
                   = some O →
              offset + (tl + 1) + (ps + 1) ≤ O)) := by
  refine ⟨fun u htag => dissect_one_tag_fail htag, fun tl tv htag => ⟨?_, ?_, ?_, ?_⟩⟩
  · intro h0 h1 h2 h5
    rw [dissect_one_eq_tagged htag]
    exact ⟨_, tagged_invalid_wire h0 h1 h2 h5⟩
  · intro hw u hx
    rw [dissect_one_eq_tagged htag, hw]
    exact ⟨_, tagged_w0_value_fail hx⟩
  · intro hw u hx
    rw [dissect_one_eq_tagged htag, hw]
    exact ⟨_, tagged_w2_prefix_fail hx⟩
  · intro hw ps L hx O hc
    rw [dissect_one_eq_tagged htag, hw] at hc
    exact tagged_w2_cursor_past_prefix hx hc

/-- Witness for C10: the tag-failure clause at the lone continuation byte
`80`, and the invalid-wire clause at the tag byte `0F` (wire type 7). -/
theorem c10_failure_cursor_positions_witness :
    dissect_one_protobuf_field recurNone [0x80] 0 1 none prefsOff
      = .failed [.expertInfo .failedParseTag] 0
    ∧ ∃ a, dissect_one_protobuf_field recurNone [0x0F] 0 1 none prefsOff
             = .failed a (0 + (0 + 1)) :=
  ⟨(@c10_failure_cursor_positions recurNone [0x80] 0 1 none prefsOff).1 0 rfl,
   ((@c10_failure_cursor_positions recurNone [0x0F] 0 1 none prefsOff).2 0 15 rfl).1
     (by decide) (by decide) (by decide) (by decide)⟩


theorem RRes.seq_actions_mem {r1 r2 : RRes} {x : Action}
    (h : x ∈ (RRes.seq r1 r2).actions) : x ∈ r1.actions ∨ x ∈ r2.actions := by
  cases r1 <;> cases r2 <;> simp_all [RRes.seq, RRes.actions]


/-- Claim C3 (amended): for a varint-packable declared type, if any
element of the span fails to varint-parse then the entire expansion fails
(0 bytes consumed) and no element leaves are committed — but no
diagnostic is emitted: the result carries exactly the "Repeated"
container item added before the scan. -/
theorem c3_varint_packed_failure_silent_amended {recur tvb start len wire_type ft fdo prefs}
    (hfam : ft = ProtobufType.INT32 ∨ ft = .INT64 ∨ ft = .UINT32 ∨ ft = .UINT64
      ∨ ft = .SINT32 ∨ ft = .SINT64 ∨ ft = .BOOL ∨ ft = .ENUM)
    (hb : start + len ≤ tvb.length)
    (hp : parseVarints tvb start (start + len) = .ok none) :
    dissect_packed_repeated_field_values recur tvb start len wire_type ft fdo prefs
      = .ret 0 [.repeatedItem start len] := by
  rcases hfam with rfl | rfl | rfl | rfl | rfl | rfl | rfl | rfl <;>
    simp [dissect_packed_repeated_field_values, hb, hp]

/-- Witness for C3 at the concrete payload `80` (a lone continuation
byte). -/
theorem c3_varint_packed_failure_silent_amended_witness :
    dissect_packed_repeated_field_values recurNone [0x80] 0 1 2 .INT32 none prefsOff
      = .ret 0 [.repeatedItem 0 1] :=
  @c3_varint_packed_failure_silent_amended recurNone [0x80] 0 1 2 .INT32 none prefsOff
    (Or.inl rfl) (by decide) rfl

theorem packed_fixed_loop_no_expert {recur tvb wire_type ft fdo prefs vs}
    (hfam : ft = ProtobufType.FIXED64 ∨ ft = .SFIXED64 ∨ ft = .DOUBLE
      ∨ ft = .FIXED32 ∨ ft = .SFIXED32 ∨ ft = .FLOAT) :
    ∀ count off,
      Action.expertInfo .failedParsePackedRepeatedField
        ∉ (packed_fixed_loop recur tvb wire_type ft fdo prefs vs count off).actions := by
  intro count
  induction count with
  | zero => intro off; simp [packed_fixed_loop, RRes.actions]
  | succ n ih =>
    intro off
    intro hmem
    simp only [packed_fixed_loop] at hmem
    rcases hx : (if wire_type = 5 then tvb_get_letohl tvb off else tvb_get_letoh64 tvb off) with
      e | v
    · rw [hx] at hmem
      simp [RRes.actions] at hmem
    · rw [hx] at hmem
      rcases RRes.seq_actions_mem hmem with hm | hm
      · rcases hfam with rfl | rfl | rfl | rfl | rfl | rfl <;>
          simp [protobuf_dissect_field_value, RRes.actions] at hm
      · exact ih (off + vs) hm

/-- For a fixed-family type whose length check passes, the expander is
the fixed-stride loop wrapped by `rresToPRes`. -/
theorem dissect_packed_fixed_eq {recur tvb start len wire_type ft fdo prefs}
    (hfam : ft = ProtobufType.FIXED64 ∨ ft = .SFIXED64 ∨ ft = .DOUBLE
      ∨ ft = .FIXED32 ∨ ft = .SFIXED32 ∨ ft = .FLOAT)
    (hb : start + len ≤ tvb.length)
    (hmod : len % packed_value_size ft = 0) :
    dissect_packed_repeated_field_values recur tvb start len wire_type ft fdo prefs
      = rresToPRes [.repeatedItem start len] len
          (packed_fixed_loop recur tvb wire_type ft fdo prefs (packed_value_size ft)
            (len / packed_value_size ft) start) := by
  rcases hfam with rfl | rfl | rfl | rfl | rfl | rfl <;>
    simp_all [dissect_packed_repeated_field_values, hb, packed_value_size]

/-- Claim C8 (amended): for a fixed-width packed family the
`failed_parse_packed_repeated_field` diagnostic is emitted (with 0 bytes
consumed and no element leaves) exactly when the payload length is NOT a
multiple of the stride; a multiple — including a zero length, which the
claim wrongly requires to fail — emits no such diagnostic, and a
zero-length payload completes successfully with zero elements. -/
theorem c8_fixed_stride_amended {recur tvb start len wire_type ft fdo prefs}
    (hfam : ft = ProtobufType.FIXED64 ∨ ft = .SFIXED64 ∨ ft = .DOUBLE
      ∨ ft = .FIXED32 ∨ ft = .SFIXED32 ∨ ft = .FLOAT)
    (hb : start + len ≤ tvb.length) :
    (¬ packed_value_size ft ∣ len →
       dissect_packed_repeated_field_values recur tvb start len wire_type ft fdo prefs
         = .ret 0 [.repeatedItem start len, .expertInfo .failedParsePackedRepeatedField])
    ∧ (packed_value_size ft ∣ len →
       Action.expertInfo .failedParsePackedRepeatedField
         ∉ (dissect_packed_repeated_field_values recur tvb start len wire_type ft fdo
              prefs).actions)
    ∧ (len = 0 →
       dissect_packed_repeated_field_values recur tvb start len wire_type ft fdo prefs
         = .ret 0 [.repeatedItem start 0, .packedEnd]) := by
  refine ⟨?_, ?_, ?_⟩
  · intro hnd
    have hmod : ¬ len % packed_value_size ft = 0 := fun hz =>
      hnd (Nat.dvd_iff_mod_eq_zero.mpr hz)
    rcases hfam with rfl | rfl | rfl | rfl | rfl | rfl <;>
      simp_all [dissect_packed_repeated_field_values, hb, packed_value_size]
  · intro hd hmem
    have hmod : len % packed_value_size ft = 0 := Nat.dvd_iff_mod_eq_zero.mp hd
    have hloop := @packed_fixed_loop_no_expert recur tvb wire_type ft fdo prefs
      (packed_value_size ft) hfam (len / packed_value_size ft) start
    rw [dissect_packed_fixed_eq hfam hb hmod] at hmem
    rcases hl : packed_fixed_loop recur tvb wire_type ft fdo prefs (packed_value_size ft)
        (len / packed_value_size ft) start with _ | a | a <;>
      rw [hl] at hmem hloop <;>
      simp_all [rresToPRes, PRes.actions, RRes.actions]
  · intro hz
    subst hz
    have hmod : (0 : Nat) % packed_value_size ft = 0 := Nat.zero_mod _
    rw [dissect_packed_fixed_eq hfam hb hmod]
    have hc : 0 / packed_value_size ft = 0 := Nat.zero_div _
    rw [hc]
    simp [packed_fixed_loop, rresToPRes]

/-- Witness for C8: a 2-byte packed FLOAT payload (not a multiple of the
4-byte stride) fails with the diagnostic; a zero-length packed DOUBLE
payload completes with zero elements. -/
theorem c8_fixed_stride_amended_witness :
    dissect_packed_repeated_field_values recurNone [0, 0] 0 2 2 .FLOAT none prefsOff
      = .ret 0 [.repeatedItem 0 2, .expertInfo .failedParsePackedRepeatedField]
    ∧ dissect_packed_repeated_field_values recurNone [] 0 0 2 .DOUBLE none prefsOff
      = .ret 0 [.repeatedItem 0 0, .packedEnd] :=
  ⟨(@c8_fixed_stride_amended recurNone [0, 0] 0 2 2 .FLOAT none prefsOff
      (Or.inr (Or.inr (Or.inr (Or.inr (Or.inr rfl))))) (by decide)).1 (by decide),
   (@c8_fixed_stride_amended recurNone [] 0 0 2 .DOUBLE none prefsOff
      (Or.inr (Or.inr (Or.inl rfl))) (by decide)).2.2 rfl⟩

theorem RRes.seq_ne_fuelOut {r1 r2 : RRes} (h1 : r1 ≠ .fuelOut) (h2 : r2 ≠ .fuelOut) :
    RRes.seq r1 r2 ≠ .fuelOut := by
  cases r1 <;> cases r2 <;> simp_all [RRes.seq]

theorem renderToField_ne_fuelOut {acts off2 vl rt} {x : RRes} (h : x ≠ .fuelOut) :
    renderToField acts off2 vl rt x ≠ .fuelOut := by
  cases x <;> simp_all [renderToField]

theorem packedToField_ne_fuelOut {acts off2 vl} {x : PRes} (h : x ≠ .fuelOut) :
    packedToField acts off2 vl x ≠ .fuelOut := by
  cases x <;> simp_all [packedToField]

theorem rresToPRes_ne_fuelOut {acts0 len} {x : RRes} (h : x ≠ .fuelOut) :
    rresToPRes acts0 len x ≠ .fuelOut := by
  cases x <;> simp_all [rresToPRes]

/-- The value renderer runs out of fuel only through the nested-message
callback. -/
theorem render_ne_fuelOut {recur tvb offset length ft v fdo prefs}
    (h : ∀ d, recur offset length d ≠ .fuelOut) :
    protobuf_dissect_field_value recur tvb offset length ft v fdo prefs ≠ .fuelOut := by
  intro hcon
  cases ft <;> simp only [protobuf_dissect_field_value] at hcon <;>
    (iterate 3 (try split at hcon)) <;> simp_all

/-- The renderer never consults the nested-message callback for a
non-MESSAGE, non-GROUP declared type. -/
theorem render_indep {r1 r2 : Nat → Nat → Option PbwDescriptor → MRes}
    {tvb offset length ft v fdo prefs}
    (hg : ft ≠ ProtobufType.GROUP) (hm : ft ≠ ProtobufType.MESSAGE) :
    protobuf_dissect_field_value r1 tvb offset length ft v fdo prefs
      = protobuf_dissect_field_value r2 tvb offset length ft v fdo prefs := by
  cases ft <;> simp_all [protobuf_dissect_field_value]

theorem multi_ne_fuelOut {recur : Nat → Nat → Option PbwDescriptor → MRes}
    {tvb : List Nat} {offset length value : Nat} {prefs}
    (h : ∀ d, recur offset length d ≠ .fuelOut) :
    ∀ types, protobuf_try_dissect_field_value_on_multi_types recur tvb offset length
        types value prefs ≠ .fuelOut := by
  intro types
  induction types with
  | nil => simp [protobuf_try_dissect_field_value_on_multi_types]
  | cons t rest ih =>
    cases t <;> simp only [protobuf_try_dissect_field_value_on_multi_types] <;>
      first
      | exact RRes.seq_ne_fuelOut (render_ne_fuelOut h) ih
      | simp

theorem renderElements_ne_fuelOut {recur tvb ft fdo prefs}
    (hg : ft ≠ ProtobufType.GROUP) (hm : ft ≠ ProtobufType.MESSAGE) :
    ∀ infos, renderElements recur tvb ft fdo prefs infos ≠ .fuelOut := by
  intro infos
  induction infos with
  | nil => simp [renderElements]
  | cons i rest ih =>
    rcases i with ⟨o, l, v⟩
    simp only [renderElements]
    refine RRes.seq_ne_fuelOut ?_ ih
    intro hcon
    cases ft <;> simp only [protobuf_dissect_field_value] at hcon <;>
      (iterate 3 (try split at hcon)) <;> simp_all

theorem renderElements_indep {r1 r2 : Nat → Nat → Option PbwDescriptor → MRes}
    {tvb ft fdo prefs}
    (hg : ft ≠ ProtobufType.GROUP) (hm : ft ≠ ProtobufType.MESSAGE) :
    ∀ infos, renderElements r1 tvb ft fdo prefs infos
      = renderElements r2 tvb ft fdo prefs infos := by
  intro infos
  induction infos with
  | nil => simp [renderElements]
  | cons i rest ih =>
    rcases i with ⟨o, l, v⟩
    simp only [renderElements]
    rw [ih, render_indep hg hm]

theorem packed_fixed_loop_ne_fuelOut {recur tvb wire_type ft fdo prefs vs}
    (hg : ft ≠ ProtobufType.GROUP) (hm : ft ≠ ProtobufType.MESSAGE) :
    ∀ count off, packed_fixed_loop recur tvb wire_type ft fdo prefs vs count off
      ≠ .fuelOut := by
  intro count
  induction count with
  | zero => intro off; simp [packed_fixed_loop]
  | succ n ih =>
    intro off
    simp only [packed_fixed_loop]
    rcases hx : (if wire_type = 5 then tvb_get_letohl tvb off else tvb_get_letoh64 tvb off)
        with e | v
    · simp
    · refine RRes.seq_ne_fuelOut ?_ (ih (off + vs))
      intro hcon
      cases ft <;> simp only [protobuf_dissect_field_value] at hcon <;>
        (iterate 3 (try split at hcon)) <;> simp_all

theorem packed_fixed_loop_indep {r1 r2 : Nat → Nat → Option PbwDescriptor → MRes}
    {tvb wire_type ft fdo prefs vs}
    (hg : ft ≠ ProtobufType.GROUP) (hm : ft ≠ ProtobufType.MESSAGE) :
    ∀ count off, packed_fixed_loop r1 tvb wire_type ft fdo prefs vs count off
      = packed_fixed_loop r2 tvb wire_type ft fdo prefs vs count off := by
  intro count
  induction count with
  | zero => intro off; simp [packed_fixed_loop]
  | succ n ih =>
    intro off
    simp only [packed_fixed_loop]
    rcases hx : (if wire_type = 5 then tvb_get_letohl tvb off else tvb_get_letoh64 tvb off)
        with e | v
    · rfl
    · dsimp only
      rw [ih (off + vs), render_indep hg hm]

/-- The packed-repeated expander never reaches the nested-message
callback: its result is independent of `recur` and never runs out of
fuel. -/
theorem packed_indep {r1 r2 : Nat → Nat → Option PbwDescriptor → MRes}
    {tvb start len wire_type ft fdo prefs} :
    dissect_packed_repeated_field_values r1 tvb start len wire_type ft fdo prefs
      = dissect_packed_repeated_field_values r2 tvb start len wire_type ft fdo prefs := by
  cases ft <;> simp only [dissect_packed_repeated_field_values] <;>
    (try split) <;>
    (try rfl) <;>
    (iterate 2 (try split)) <;>
    (try rfl) <;>
    first
      | rw [renderElements_indep (by simp) (by simp) _]
      | rw [packed_fixed_loop_indep (by simp) (by simp) _ _]

theorem packed_ne_fuelOut {recur tvb start len wire_type ft fdo prefs} :
    dissect_packed_repeated_field_values recur tvb start len wire_type ft fdo prefs
      ≠ .fuelOut := by
  cases ft <;> simp only [dissect_packed_repeated_field_values] <;>
    (try split) <;>
    (try simp) <;>
    (iterate 2 (try split)) <;>
    (try simp) <;>
    first
      | exact rresToPRes_ne_fuelOut (renderElements_ne_fuelOut (by simp) (by simp) _)
      | exact rresToPRes_ne_fuelOut (packed_fixed_loop_ne_fuelOut (by simp) (by simp) _ _)

theorem renderToField_fuelOut_iff {acts off2 vl rt} {x : RRes} :
    renderToField acts off2 vl rt x = .fuelOut ↔ x = .fuelOut := by
  cases x <;> simp [renderToField]

theorem packedToField_fuelOut_iff {acts off2 vl} {x : PRes} :
    packedToField acts off2 vl x = .fuelOut ↔ x = .fuelOut := by
  cases x <;> simp [packedToField]

/-- The renderer agrees across nested-message callbacks that agree on
non-fuel-out results. -/
theorem render_mono {r1 r2 : Nat → Nat → Option PbwDescriptor → MRes}
    {tvb offset length ft v fdo prefs}
    (hrec : ∀ o l d, r1 o l d ≠ .fuelOut → r2 o l d = r1 o l d)
    (hne : protobuf_dissect_field_value r1 tvb offset length ft v fdo prefs ≠ .fuelOut) :
    protobuf_dissect_field_value r2 tvb offset length ft v fdo prefs
      = protobuf_dissect_field_value r1 tvb offset length ft v fdo prefs := by
  have hmsg : ∀ ftm : ProtobufType, ftm = .GROUP ∨ ftm = .MESSAGE →
      protobuf_dissect_field_value r1 tvb offset length ftm v fdo prefs ≠ .fuelOut →
      protobuf_dissect_field_value r2 tvb offset length ftm v fdo prefs
        = protobuf_dissect_field_value r1 tvb offset length ftm v fdo prefs := by
    intro ftm hor hne2
    rcases fdo with _ | fd
    · rcases hor with rfl | rfl <;> simp [protobuf_dissect_field_value]
    · rcases hmt : fd.message_type with _ | md
      · rcases hor with rfl | rfl <;> simp [protobuf_dissect_field_value, hmt]
      · rcases hr : r1 offset length (some md) with _ | a | a
        · rcases hor with rfl | rfl <;>
            exact absurd (by simp [protobuf_dissect_field_value, hmt, hr]) hne2
        · have h2 := hrec offset length (some md) (by rw [hr]; simp)
          rcases hor with rfl | rfl <;>
            simp [protobuf_dissect_field_value, hmt, hr, h2]
        · have h2 := hrec offset length (some md) (by rw [hr]; simp)
          rcases hor with rfl | rfl <;>
            simp [protobuf_dissect_field_value, hmt, hr, h2]
  cases ft
  case GROUP => exact hmsg _ (Or.inl rfl) hne
  case MESSAGE => exact hmsg _ (Or.inr rfl) hne
  all_goals exact render_indep (by simp) (by simp)

theorem multi_none_eq {recur tvb offset length value prefs rest} :
    protobuf_try_dissect_field_value_on_multi_types recur tvb offset length
      (ProtobufType.NONE :: rest) value prefs = .ok [] := by
  simp [protobuf_try_dissect_field_value_on_multi_types]

theorem multi_cons_eq {recur tvb offset length value prefs t rest}
    (hne : t ≠ ProtobufType.NONE) :
    protobuf_try_dissect_field_value_on_multi_types recur tvb offset length
      (t :: rest) value prefs
      = RRes.seq (protobuf_dissect_field_value recur tvb offset length t value none prefs)
          (protobuf_try_dissect_field_value_on_multi_types recur tvb offset length rest
            value prefs) := by
  cases t <;> simp_all [protobuf_try_dissect_field_value_on_multi_types]

theorem multi_mono {r1 r2 : Nat → Nat → Option PbwDescriptor → MRes}
    {tvb : List Nat} {offset length value : Nat} {prefs}
    (hrec : ∀ o l d, r1 o l d ≠ .fuelOut → r2 o l d = r1 o l d) :
    ∀ types,
      protobuf_try_dissect_field_value_on_multi_types r1 tvb offset length types value prefs
        ≠ .fuelOut →
      protobuf_try_dissect_field_value_on_multi_types r2 tvb offset length types value prefs
        = protobuf_try_dissect_field_value_on_multi_types r1 tvb offset length types value
            prefs := by
  intro types
  induction types with
  | nil => intro _; rfl
  | cons t rest ih =>
    intro hne
    by_cases ht : t = ProtobufType.NONE
    · subst ht
      rw [multi_none_eq, multi_none_eq]
    · rw [multi_cons_eq ht] at hne
      rw [multi_cons_eq ht, multi_cons_eq ht]
      have hrne : protobuf_dissect_field_value r1 tvb offset length t value none prefs
          ≠ .fuelOut := by
        intro hcon
        rw [hcon] at hne
        simp [RRes.seq] at hne
      rw [render_mono hrec hrne]
      rcases hr : protobuf_dissect_field_value r1 tvb offset length t value none prefs with
        _ | a | a
      · exact absurd hr hrne
      · simp [RRes.seq]
      · rw [hr] at hne
        have hmne : protobuf_try_dissect_field_value_on_multi_types r1 tvb offset length
            rest value prefs ≠ .fuelOut := by
          intro hcon
          rw [hcon] at hne
          simp [RRes.seq] at hne
        rw [ih hmne]

theorem after_mono {r1 r2 : Nat → Nat → Option PbwDescriptor → MRes}
    {tvb w fdo prefs off2 vl v acts}
    (hrec : ∀ o l d, r1 o l d ≠ .fuelOut → r2 o l d = r1 o l d)
    (hne : dissect_field_value_and_advance r1 tvb w fdo prefs off2 vl v acts ≠ .fuelOut) :
    dissect_field_value_and_advance r2 tvb w fdo prefs off2 vl v acts
      = dissect_field_value_and_advance r1 tvb w fdo prefs off2 vl v acts := by
  by_cases hb : off2 + vl ≤ tvb.length
  · simp only [dissect_field_value_and_advance, if_pos hb] at hne ⊢
    rcases fdo with _ | fd
    · by_cases hs : prefs.show_all_possible_field_types = true <;>
        simp only [hs, if_true, Bool.false_eq_true, if_false,
          (show ¬ (False) from id)] at hne ⊢ <;>
      · rw [multi_mono hrec _ (fun hcon => hne (renderToField_fuelOut_iff.mpr hcon))]
    · by_cases hp : (fd.is_packed && fd.is_repeated) = true
      · simp only [hp, if_true] at hne ⊢
        exact congrArg _ packed_indep
      · simp only [hp, Bool.false_eq_true, if_false] at hne ⊢
        rw [render_mono hrec (fun hcon => hne (renderToField_fuelOut_iff.mpr hcon))]
  · simp only [dissect_field_value_and_advance, if_neg hb]

theorem after_ne_fuelOut {recur tvb w fdo prefs off2 vl v acts}
    (h : off2 + vl ≤ tvb.length → ∀ d, recur off2 vl d ≠ .fuelOut) :
    dissect_field_value_and_advance recur tvb w fdo prefs off2 vl v acts ≠ .fuelOut := by
  by_cases hb : off2 + vl ≤ tvb.length
  · simp only [dissect_field_value_and_advance, if_pos hb]
    rcases fdo with _ | fd
    · by_cases hs : prefs.show_all_possible_field_types = true <;>
        simp only [hs, if_true, Bool.false_eq_true, if_false] <;>
        exact renderToField_ne_fuelOut (multi_ne_fuelOut (h hb) _)
    · by_cases hp : (fd.is_packed && fd.is_repeated) = true
      · simp only [hp, if_true]
        exact packedToField_ne_fuelOut packed_ne_fuelOut
      · simp only [hp, Bool.false_eq_true, if_false]
        exact renderToField_ne_fuelOut (render_ne_fuelOut (h hb))
  · simp only [dissect_field_value_and_advance, if_neg hb]
    simp

theorem tagged_ne_fuelOut {recur tvb offset tagLen maxlen w fdo prefs tagActs}
    (h : ∀ o' l' d, offset + tagLen ≤ o' → o' + l' ≤ tvb.length →
          recur o' l' d ≠ .fuelOut) :
    dissect_tagged_field recur tvb offset tagLen maxlen w fdo prefs tagActs
      ≠ .fuelOut := by
  by_cases h0 : w = 0
  · subst h0
    rcases hx : tvb_get_varint tvb (offset + tagLen) (maxlen - tagLen) with e | ⟨n, v⟩
    · simp [dissect_tagged_field, hx]
    · cases n with
      | zero => simp [dissect_tagged_field, hx]
      | succ vl =>
        rw [tagged_w0_eq_after hx]
        exact after_ne_fuelOut (fun hb d => h _ _ d (Nat.le_refl _) hb)
  by_cases h1 : w = 1
  · subst h1
    rcases hx : tvb_get_letoh64 tvb (offset + tagLen) with e | v
    · simp [dissect_tagged_field, hx]
    · rw [tagged_w1_eq_after hx]
      exact after_ne_fuelOut (fun hb d => h _ _ d (Nat.le_refl _) hb)
  by_cases h5 : w = 5
  · subst h5
    rcases hx : tvb_get_letohl tvb (offset + tagLen) with e | v
    · simp [dissect_tagged_field, hx]
    · rw [tagged_w5_eq_after hx]
      exact after_ne_fuelOut (fun hb d => h _ _ d (Nat.le_refl _) hb)
  by_cases h2 : w = 2
  · subst h2
    rcases hx : tvb_get_varint tvb (offset + tagLen) (maxlen - tagLen) with e | ⟨n, L⟩
    · simp [dissect_tagged_field, hx]
    · cases n with
      | zero => simp [dissect_tagged_field, hx]
      | succ ps =>
        rw [tagged_w2_eq_after hx]
        exact after_ne_fuelOut (fun hb d => h _ _ d (by omega) hb)
  rw [tagged_invalid_wire h0 h1 h2 h5]
  simp

theorem tagged_mono {r1 r2 : Nat → Nat → Option PbwDescriptor → MRes}
    {tvb offset tagLen maxlen w fdo prefs tagActs}
    (hrec : ∀ o l d, r1 o l d ≠ .fuelOut → r2 o l d = r1 o l d)
    (hne : dissect_tagged_field r1 tvb offset tagLen maxlen w fdo prefs tagActs
            ≠ .fuelOut) :
    dissect_tagged_field r2 tvb offset tagLen maxlen w fdo prefs tagActs
      = dissect_tagged_field r1 tvb offset tagLen maxlen w fdo prefs tagActs := by
  by_cases h0 : w = 0
  · subst h0
    rcases hx : tvb_get_varint tvb (offset + tagLen) (maxlen - tagLen) with e | ⟨n, v⟩
    · simp [dissect_tagged_field, hx]
    · cases n with
      | zero => simp [dissect_tagged_field, hx]
      | succ vl =>
        simp only [tagged_w0_eq_after hx] at hne ⊢
        exact after_mono hrec hne
  by_cases h1 : w = 1
  · subst h1
    rcases hx : tvb_get_letoh64 tvb (offset + tagLen) with e | v
    · simp [dissect_tagged_field, hx]
    · simp only [tagged_w1_eq_after hx] at hne ⊢
      exact after_mono hrec hne
  by_cases h5 : w = 5
  · subst h5
    rcases hx : tvb_get_letohl tvb (offset + tagLen) with e | v
    · simp [dissect_tagged_field, hx]
    · simp only [tagged_w5_eq_after hx] at hne ⊢
      exact after_mono hrec hne
  by_cases h2 : w = 2
  · subst h2
    rcases hx : tvb_get_varint tvb (offset + tagLen) (maxlen - tagLen) with e | ⟨n, L⟩
    · simp [dissect_tagged_field, hx]
    · cases n with
      | zero => simp [dissect_tagged_field, hx]
      | succ ps =>
        simp only [tagged_w2_eq_after hx] at hne ⊢
        exact after_mono hrec hne
  simp only [tagged_invalid_wire h0 h1 h2 h5]

theorem field_ne_fuelOut {recur tvb offset maxlen desc prefs}
    (h : ∀ o' l' d, offset + 1 ≤ o' → o' + l' ≤ tvb.length → recur o' l' d ≠ .fuelOut) :
    dissect_one_protobuf_field recur tvb offset maxlen desc prefs ≠ .fuelOut := by
  rcases htag : tvb_get_varint tvb offset maxlen with e | ⟨n, tv⟩
  · rw [dissect_one_tag_throw htag]
    simp
  · cases n with
    | zero =>
      rw [dissect_one_tag_fail htag]
      simp
    | succ tl =>
      rw [dissect_one_eq_tagged htag]
      exact tagged_ne_fuelOut (fun o' l' d ho hb => h o' l' d (by omega) hb)

theorem field_mono {r1 r2 : Nat → Nat → Option PbwDescriptor → MRes}
    {tvb offset maxlen desc prefs}
    (hrec : ∀ o l d, r1 o l d ≠ .fuelOut → r2 o l d = r1 o l d)
    (hne : dissect_one_protobuf_field r1 tvb offset maxlen desc prefs ≠ .fuelOut) :
    dissect_one_protobuf_field r2 tvb offset maxlen desc prefs
      = dissect_one_protobuf_field r1 tvb offset maxlen desc prefs := by
  rcases htag : tvb_get_varint tvb offset maxlen with e | ⟨n, tv⟩
  · rw [dissect_one_tag_throw htag, dissect_one_tag_throw htag]
  · cases n with
    | zero => rw [dissect_one_tag_fail htag, dissect_one_tag_fail htag]
    | succ tl =>
      rw [dissect_one_eq_tagged htag] at hne
      rw [dissect_one_eq_tagged htag, dissect_one_eq_tagged htag]
      exact tagged_mono hrec hne

theorem msgLoop_ne_fuelOut {fieldFn : Nat → Nat → FieldResult} {off0 maxOff : Nat}
    (hf : ∀ o ml, off0 ≤ o → fieldFn o ml ≠ .fuelOut)
    (hadv : ∀ o ml A O R, fieldFn o ml = .success A O R → o < O) :
    ∀ iter off acc, off0 ≤ off → maxOff - off < iter →
      msgLoop fieldFn iter off maxOff acc ≠ .fuelOut := by
  intro iter
  induction iter with
  | zero => intro off acc h0 hlt; omega
  | succ n ih =>
    intro off acc h0 hlt
    simp only [msgLoop]
    by_cases hoff : off < maxOff
    · simp only [if_pos hoff]
      rcases hfr : fieldFn off (maxOff - off) with _ | ⟨a, o⟩ | ⟨a, o⟩ | ⟨a, o, r⟩
      · exact absurd hfr (hf off _ h0)
      · simp
      · simp
      · exact ih o (acc ++ a) (by have := hadv _ _ _ _ _ hfr; omega)
          (by have := hadv _ _ _ _ _ hfr; omega)
    · simp [if_neg hoff]

theorem msgLoop_mono {f1 f2 : Nat → Nat → FieldResult} {maxOff : Nat}
    (hf : ∀ o ml, f1 o ml ≠ .fuelOut → f2 o ml = f1 o ml) :
    ∀ iter off acc, msgLoop f1 iter off maxOff acc ≠ .fuelOut →
      msgLoop f2 iter off maxOff acc = msgLoop f1 iter off maxOff acc := by
  intro iter
  induction iter with
  | zero => intro off acc hne; exact absurd rfl hne
  | succ n ih =>
    intro off acc hne
    simp only [msgLoop] at hne ⊢
    by_cases hoff : off < maxOff
    · simp only [if_pos hoff] at hne ⊢
      have hfne : f1 off (maxOff - off) ≠ .fuelOut := by
        intro hcon
        rw [hcon] at hne
        simp at hne
      rw [hf _ _ hfne]
      rcases hfr : f1 off (maxOff - off) with _ | ⟨a, o⟩ | ⟨a, o⟩ | ⟨a, o, r⟩
      · exact absurd hfr hfne
      · simp
      · simp
      · rw [hfr] at hne
        exact ih o (acc ++ a) hne
    · simp [if_neg hoff]

/-- Sufficient fuel: the message decoder never runs out of fuel when the
fuel exceeds the remaining buffer size (every nesting level starts at a
strictly larger buffer offset). -/
theorem msg_ne_fuelOut {tvb : List Nat} {prefs : ProtobufPrefs} :
    ∀ fuel offset length desc, tvb.length - offset + 2 ≤ fuel →
      dissect_protobuf_message fuel tvb offset length desc prefs ≠ .fuelOut := by
  intro fuel
  induction fuel with
  | zero => intro offset length desc hlt; omega
  | succ f ih =>
    intro offset length desc hlt
    simp only [dissect_protobuf_message]
    refine @msgLoop_ne_fuelOut _ offset _ ?_ ?_ (length + 1) offset _ ?_ ?_
    · intro o ml ho
      apply field_ne_fuelOut
      intro o' l' d ho' hb
      exact ih o' l' d (by omega)
    · intro o ml A O R hs
      exact dissect_one_success_advance hs
    · exact Nat.le_refl _
    · omega

/-- Fuel monotonicity: one more unit of fuel does not change a
non-fuel-out result. -/
theorem msg_mono {tvb : List Nat} {prefs : ProtobufPrefs} :
    ∀ fuel offset length desc,
      dissect_protobuf_message fuel tvb offset length desc prefs ≠ .fuelOut →
      dissect_protobuf_message (fuel + 1) tvb offset length desc prefs
        = dissect_protobuf_message fuel tvb offset length desc prefs := by
  intro fuel
  induction fuel with
  | zero => intro offset length desc hne; exact absurd rfl hne
  | succ f ih =>
    intro offset length desc hne
    simp only [dissect_protobuf_message] at hne ⊢
    apply msgLoop_mono _ _ _ _ hne
    intro o ml hfne
    apply field_mono _ hfne
    intro o' l' d hne'
    exact ih o' l' d hne'

/-- Fuel monotonicity, iterated. -/
theorem msg_mono_le {tvb : List Nat} {prefs : ProtobufPrefs} {b : Nat}
    {offset length : Nat} {desc : Option PbwDescriptor}
    (hne : dissect_protobuf_message b tvb offset length desc prefs ≠ .fuelOut) :
    ∀ f, b ≤ f →
      dissect_protobuf_message f tvb offset length desc prefs
        = dissect_protobuf_message b tvb offset length desc prefs := by
  intro f
  induction f with
  | zero =>
    intro hb
    have : b = 0 := by omega
    subst this
    rfl
  | succ n ih =>
    intro hb
    rcases Nat.lt_or_ge b (n + 1) with hlt | hge
    · have heq := ih (by omega)
      rw [msg_mono n offset length desc (heq ▸ hne), heq]
    · have : b = n + 1 := by omega
      subst this
      rfl

/-- Claim C6: the message decoder terminates.  Every successful field
strictly advances the cursor by at least one byte (the tag varint is
non-empty); the field loop halts at the first field that returns false,
retaining the already-emitted children; and with the recursion fuel set
to `tvb.length + 2` the decoder reaches a definite result — more fuel
never changes it — because each nested-message level starts at a strictly
larger buffer offset, so the depth is bounded by the buffer length. -/
theorem c6_message_decoder_terminates :
    (∀ recur tvb offset maxlen desc prefs A O R,
       dissect_one_protobuf_field recur tvb offset maxlen desc prefs
         = FieldResult.success A O R → offset < O)
    ∧ (∀ (fieldFn : Nat → Nat → FieldResult) iter off maxOff acc a o, off < maxOff →
        fieldFn off (maxOff - off) = FieldResult.failed a o →
        msgLoop fieldFn (iter + 1) off maxOff acc = .done (acc ++ a))
    ∧ (∀ (tvb : List Nat) offset length desc prefs,
        dissect_protobuf_message (tvb.length + 2) tvb offset length desc prefs ≠ .fuelOut
        ∧ ∀ fuel, tvb.length + 2 ≤ fuel →
            dissect_protobuf_message fuel tvb offset length desc prefs
              = dissect_protobuf_message (tvb.length + 2) tvb offset length desc prefs) := by
  refine ⟨fun recur tvb offset maxlen desc prefs A O R h =>
      dissect_one_success_advance h, ?_, ?_⟩
  · intro fieldFn iter off maxOff acc a o hlt hf
    simp [msgLoop, hlt, hf]
  · intro tvb offset length desc prefs
    have hne := @msg_ne_fuelOut tvb prefs (tvb.length + 2) offset length desc (by omega)
    exact ⟨hne, fun fuel hf => msg_mono_le hne fuel hf⟩

/-- Witness for C6: strict advance on the field `08 96 01`; fuel
stability of the whole-message decode of `08 96 01` (buffer length 3, so
canonical fuel 5); and halting of the loop at the failing tag `80`. -/
theorem c6_message_decoder_terminates_witness :
    ((0 : Nat) < 3)
    ∧ dissect_protobuf_message 6 [0x08, 0x96, 0x01] 0 3 none prefsOff
        = dissect_protobuf_message 5 [0x08, 0x96, 0x01] 0 3 none prefsOff
    ∧ msgLoop (fun o ml => dissect_one_protobuf_field recurNone [0x80] o ml none prefsOff)
        (0 + 1) 0 1 [] = .done ([] ++ [Action.expertInfo .failedParseTag]) :=
  ⟨c6_message_decoder_terminates.1 recurNone [0x08, 0x96, 0x01] 0 3 none prefsOff
     [.fieldNumberItem 1, .wireTypeItem 0, .fieldNameItem "<UNKNOWN>",
      .valueBytesItem 1 2, .typedLeaf .UINT32 1 2 150] 3 .fallbackSingle (by decide),
   (c6_message_decoder_terminates.2.2 [0x08, 0x96, 0x01] 0 3 none prefsOff).2 6
     (by decide),
   c6_message_decoder_terminates.2.1
     (fun o ml => dissect_one_protobuf_field recurNone [0x80] o ml none prefsOff)
     0 0 1 [] [Action.expertInfo .failedParseTag] 0 (by decide) rfl⟩

end PacketProtobuf
